import Mathlib

/-!
Verification development for the AnkiPandas `AnkiDataFrame` conversion engine
(`src/ankipandas/ankidf.py`).

The dataframe is shallowly embedded as an explicit record: an ordered list of
column names, a list of rows (each a list of cell values, positionally aligned
with the column list), an index (list of values) with an index name, plus the
metadata attributes `_anki_table`, `_df_format` and `_fields_format` carried by
`AnkiDataFrame`.  Pandas column operations are embedded positionally: a column
write aligns by position, which agrees with pandas label alignment whenever the
index has no duplicates (Anki primary keys are unique); boolean-mask writes are
positional in pandas as well.  Cell-level type errors that pandas would raise
on malformed cells (for example joining a list that contains a non-string) are
embedded as NaN results, mirroring the pandas `.str` accessor; these branches
are unreachable under the well-formedness hypotheses used below.

The helper modules `ankipandas._columns`, `ankipandas.raw` and
`ankipandas.util.*` are imported by `ankidf.py` but are not part of the given
sources; the definitions below that stand in for them are modelled from the
specification (sections 4.1, 4.3 and 6) and are marked as such in their doc
comments.
-/

namespace AnkiPandas

deriving instance DecidableEq for Except

/-- A scalar value stored inside a list-valued cell (string, integer, or the
pandas missing-value marker NaN).  List-valued cells in this code base only
ever hold strings or missing values; a nested list is collapsed to NaN by
`Val.toCell` (documented approximation, unreachable in the modelled flows). -/
inductive Cell where
  | s (v : String)
  | i (v : Int)
  | nan
deriving DecidableEq, Repr

/-- A dataframe cell value: string, integer, list, or NaN. -/
inductive Val where
  | s (v : String)
  | i (v : Int)
  | vlist (v : List Cell)
  | nan
deriving DecidableEq, Repr

def Val.toCell : Val → Cell
  | .s v => .s v
  | .i v => .i v
  | .vlist _ => .nan
  | .nan => .nan

def Cell.toVal : Cell → Val
  | .s v => .s v
  | .i v => .i v
  | .nan => .nan

-- ==========================================================================
-- Field/Tag codec (ankidf.py lines 1047-1060 and 1159-1165); strings are
-- handled through their character lists, `List.splitOn` has exactly the
-- semantics of Python single-character `str.split`.
-- ==========================================================================

/-- The ASCII unit separator 0x1F used to pack note fields. -/
def fieldSep : Char := Char.ofNat 31

/-- `flds.split("\x1f")` as used in `normalize` (line 1059). -/
def splitFields (s : String) : List String := (s.data.splitOn fieldSep).map String.mk

/-- `"\x1f".join(fields)` as used in `raw` (line 1159). -/
def joinFields (xs : List String) : String := String.mk (List.intercalate [fieldSep] (xs.map String.data))

/-- `[item for item in joined.split(" ") if item]` (normalize, line 1051). -/
def splitTags (s : String) : List String :=
  (((s.data.splitOn (Char.ofNat 32)).map String.mk).filter (fun t => decide (¬ t = "")))

/-- `" ".join(tags)` as used in `raw` (line 1165). -/
def joinTags (xs : List String) : String := String.mk (List.intercalate [Char.ofNat 32] (xs.map String.data))

/-- Modelled from the spec: `ankipandas.util.checksum.field_checksum` is not in
the given sources; section 4.4 only requires a fixed deterministic hash of the
first field, so any concrete deterministic function is a faithful model. -/
def field_checksum (s : String) : Int := Int.ofNat (s.data.foldl (fun a c => a + c.toNat) 0)

-- ==========================================================================
-- Column schema (modelled from the spec).
-- ==========================================================================

/-- Modelled from the spec: `_columns.anki_columns`, the exact native column
order per table, is specified verbatim in spec section 6. -/
def ankiColumns : String → List String
  | "notes" => ["id", "guid", "mid", "mod", "usn", "tags", "flds", "sfld", "csum", "flags", "data"]
  | "cards" => ["id", "nid", "did", "ord", "mod", "usn", "type", "queue", "due", "ivl",
                "factor", "reps", "lapses", "left", "odue", "odid", "flags", "data"]
  | "revs" => ["id", "cid", "usn", "ease", "ivl", "lastIvl", "factor", "time", "type"]
  | _ => []

/-- Modelled from the spec: `_columns.columns_anki2ours`, the native-name to
convenience-name rename map (spec section 4.1); the convenience names are the
ones `ankidf.py` itself reads and writes (nid, nguid, nmod, nusn, ntags,
nflds, nsfld, ncsum, cdeck, codeck, codid, rid, ...).  Identity renames are
omitted. -/
def columnsAnki2Ours : String → List (String × String)
  | "notes" => [("id", "nid"), ("guid", "nguid"), ("mod", "nmod"), ("usn", "nusn"),
                ("tags", "ntags"), ("flds", "nflds"), ("sfld", "nsfld"), ("csum", "ncsum")]
  | "cards" => [("id", "cid"), ("mod", "cmod"), ("usn", "cusn"), ("ord", "cord"),
                ("type", "ctype"), ("queue", "cqueue"), ("due", "cdue"), ("ivl", "civl"),
                ("factor", "cfactor"), ("reps", "creps"), ("lapses", "clapses"),
                ("left", "cleft"), ("odue", "codue"), ("odid", "codid")]
  | "revs" => [("id", "rid"), ("usn", "rusn"), ("ease", "rease"), ("ivl", "rivl"),
               ("lastIvl", "rlastIvl"), ("factor", "rfactor"), ("time", "rtime"),
               ("type", "rtype")]
  | _ => []

/-- Modelled from the spec: `_columns.our_columns`, the convenience-format
column allowlist kept by `normalize` (spec sections 4.1 and 4.4: everything
not in the convenience schema is dropped; the reverse conversion re-derives
ids, sort field and checksum, so those are not kept). -/
def ourColumns : String → List String
  | "notes" => ["nguid", "nmod", "nusn", "ntags", "nflds", "nmodel"]
  | "cards" => ["nid", "cdeck", "cord", "cmod", "cusn", "cqueue", "ctype", "civl",
                "cfactor", "creps", "clapses", "cleft", "cdue", "codue", "codeck"]
  | "revs" => ["cid", "rusn", "rease", "rivl", "rlastIvl", "rfactor", "rtime", "rtype"]
  | _ => []

/-- Modelled from the spec: `_columns.table2index` (spec section 4.1, the
designated index column per table, after renaming). -/
def table2index : String → String
  | "notes" => "nid"
  | "cards" => "cid"
  | "revs" => "rid"
  | _ => ""

/-- Modelled from the spec (section 6): the card queue codes, a fixed bijective
integer-coded enumeration. -/
def cqueueMap : List (Int × String) :=
  [(-3, "sched buried"), (-2, "user buried"), (-1, "suspended"),
   (0, "new"), (1, "learning"), (2, "due"), (3, "in learning")]

/-- Modelled from the spec (section 6): the card type codes. -/
def ctypeMap : List (Int × String) :=
  [(0, "learning"), (1, "review"), (2, "relearn"), (3, "cram")]

/-- Modelled from the spec (section 6): the review type codes. -/
def rtypeMap : List (Int × String) :=
  [(0, "learning"), (1, "review"), (2, "relearn"), (3, "cram")]

/-- Modelled from the spec: `_columns.value_maps`, keyed by table and
convenience column name (spec sections 4.1 and 6). -/
def valueMapsFor : String → List (String × List (Int × String))
  | "cards" => [("cqueue", cqueueMap), ("ctype", ctypeMap)]
  | "revs" => [("rtype", rtypeMap)]
  | _ => []

/-- Association-list lookup, the embedding of a Python dict lookup. -/
def lookupA {κ α : Type} [DecidableEq κ] (m : List (κ × α)) (k : κ) : Option α :=
  (m.find? (fun p => decide (p.1 = k))).map (fun p => p.2)

/-- Modelled from the spec: `ankipandas.util.misc.invert_dict`; the maps it is
applied to are bijective (spec section 4.1), so first-match lookup in the
swapped list agrees with the Python dict comprehension. -/
def invert_dict {κ α : Type} (m : List (κ × α)) : List (α × κ) :=
  m.map (fun p => (p.2, p.1))

-- ==========================================================================
-- Database / ID resolver (modelled from the spec, section 4.3: the
-- `ankipandas.raw` accessors are cached dictionary lookups over the storage
-- layer and are not part of the given sources).
-- ==========================================================================

/-- Modelled from the spec: the read-only ID-resolver state backing the
`ankipandas.raw.get_*` accessors (spec section 4.3). -/
structure DB where
  did2deck : List (Int × String)
  mid2model : List (Int × String)
  mid2fields : List (Int × List String)
  mid2sortfield : List (Int × Nat)
  cid2nid : List (Int × Int)
  cid2did : List (Int × Int)
  nid2mid : List (Int × Int)
deriving Repr

/-- Modelled from the spec: `raw.get_deck2did` is the inverse lookup of
`raw.get_did2deck` (spec section 4.3, bidirectional lookup tables). -/
def get_deck2did (db : DB) : List (String × Int) := invert_dict db.did2deck

/-- Modelled from the spec: `raw.get_model2mid` is the inverse lookup of
`raw.get_mid2model`. -/
def get_model2mid (db : DB) : List (String × Int) := invert_dict db.mid2model

/-- `series.map(dict)` for an Int-keyed dict: values missing from the dict
(including non-integer cells) become NaN. -/
def mapViaI (m : List (Int × String)) : Val → Val
  | .i k => match lookupA m k with
    | some v => .s v
    | none => .nan
  | _ => .nan

/-- `series.map(dict)` for a String-keyed dict with Int values. -/
def mapViaS (m : List (String × Int)) : Val → Val
  | .s k => match lookupA m k with
    | some v => .i v
    | none => .nan
  | _ => .nan

/-- `series.map(dict)` for an Int-keyed dict with Int values. -/
def mapViaII (m : List (Int × Int)) : Val → Val
  | .i k => match lookupA m k with
    | some v => .i v
    | none => .nan
  | _ => .nan

-- ==========================================================================
-- The dataframe state.
-- ==========================================================================

/-- The embedded `AnkiDataFrame`: pandas data (columns, rows, index) plus the
instance attributes `_anki_table`, `_df_format`, `_fields_format`.  The
`fields_as_columns_prefix` attribute always holds its default `nfld_` in the
modelled flows and is embedded as the constant `fieldColPfx`. -/
structure DF where
  cols : List String
  rows : List (List Val)
  index : List Val
  indexName : String
  table : String
  dfFormat : String
  fieldsFormat : String
deriving DecidableEq, Repr

/-- Default value of `fields_as_columns_prefix` (ankidf.py line 66). -/
def fieldColPfx : String := "nfld_"

/-- Read the cell of row `r` in column `c` (NaN if the column is absent; the
call sites that would raise `KeyError` in pandas guard the presence of `c`
explicitly). -/
def getCell (cols : List String) (r : List Val) (c : String) : Val :=
  match cols.findIdx? (fun x => decide (x = c)) with
  | some j => r.getD j .nan
  | none => .nan

/-- Write the cell of row `r` in column `c` (no-op if absent). -/
def setCellRow (cols : List String) (r : List Val) (c : String) (v : Val) : List Val :=
  match cols.findIdx? (fun x => decide (x = c)) with
  | some j => r.set j v
  | none => r

/-- `df[c]` as a list of values, aligned with `df.rows`. -/
def DF.getColVals (df : DF) (c : String) : List Val :=
  df.rows.map (fun r => getCell df.cols r c)

/-- `df[c] = series`: overwrite an existing column in place, or append a new
column at the end (pandas column-creation order). -/
def DF.setColVals (df : DF) (c : String) (vs : List Val) : DF :=
  { df with
    cols := match df.cols.findIdx? (fun x => decide (x = c)) with
            | some _ => df.cols
            | none => df.cols ++ [c],
    rows := match df.cols.findIdx? (fun x => decide (x = c)) with
            | some j => List.zipWith (fun r v => r.set j v) df.rows vs
            | none => List.zipWith (fun r v => r ++ [v]) df.rows vs }

/-- `df[c] = scalar` broadcast over all rows. -/
def DF.setColConst (df : DF) (c : String) (v : Val) : DF :=
  df.setColVals c (df.rows.map (fun _ => v))

/-- `df[c] = df[c].map(f)`-style per-cell rewrite of one column (no-op if the
column is absent; call sites guard presence where pandas would raise). -/
def DF.mapCol (df : DF) (c : String) (f : Val → Val) : DF :=
  { df with
    rows := match df.cols.findIdx? (fun x => decide (x = c)) with
            | some j => df.rows.map (fun r => r.set j (f (r.getD j .nan)))
            | none => df.rows }

/-- `df.rename(columns=m)`. -/
def DF.renameCols (df : DF) (m : List (String × String)) : DF :=
  { df with cols := df.cols.map (fun c => ((m.find? (fun p => decide (p.1 = c))).map (fun p => p.2)).getD c) }

/-- Keep only the columns satisfying `keep`, preserving order (pandas
`df.drop(columns, axis=1)`). -/
def DF.filterCols (df : DF) (keep : String → Bool) : DF :=
  { df with cols := df.cols.filter keep,
            rows := df.rows.map (fun r => ((df.cols.zip r).filter (fun p => keep p.1)).map (fun p => p.2)) }

/-- `df.drop(set(df.columns) - set(keepList), axis=1)` (normalize line 1065). -/
def DF.dropColsNotIn (df : DF) (keepList : List String) : DF :=
  df.filterCols (fun c => decide (c ∈ keepList))

/-- `df.set_index(c)`: promote column `c` to the index (KeyError if absent). -/
def setIndexE (df : DF) (c : String) : Except String DF :=
  match df.cols.findIdx? (fun x => decide (x = c)) with
  | none => .error "KeyError"
  | some j =>
    .ok { df with index := df.rows.map (fun r => r.getD j .nan),
                  indexName := c,
                  cols := df.cols.eraseIdx j,
                  rows := df.rows.map (fun r => r.eraseIdx j) }

/-- `df.reset_index(inplace=True, drop=False)`: the index becomes the first
column (named `index` if it was an unnamed range index) and is replaced by a
fresh range index. -/
def DF.resetIndex (df : DF) : DF :=
  let nm := if df.indexName = "" then "index" else df.indexName
  { df with cols := nm :: df.cols,
            rows := List.zipWith (fun i r => i :: r) df.index df.rows,
            index := (List.range df.rows.length).map (fun n => Val.i (Int.ofNat n)),
            indexName := "" }

/-- Create column `c` filled with `dflt` unless it already exists
(`if c not in self.columns: self[c] = dflt`, ankidf.py line 597). -/
def DF.ensureCol (df : DF) (c : String) (dflt : Val) : DF :=
  if c ∈ df.cols then df
  else { df with cols := df.cols ++ [c], rows := df.rows.map (fun r => r ++ [dflt]) }

/-- `df.loc[mask, c] = f(row)`: write `c` on the rows selected by the boolean
mask; if `c` does not exist it is created, with `dflt` (NaN in pandas) on the
unselected rows. -/
def DF.updateMask (df : DF) (mask : List Bool) (c : String) (f : List String → List Val → Val)
    (dflt : Val) : DF :=
  { df with
    cols := match df.cols.findIdx? (fun x => decide (x = c)) with
            | some _ => df.cols
            | none => df.cols ++ [c],
    rows := match df.cols.findIdx? (fun x => decide (x = c)) with
            | some j => List.zipWith (fun b r => if b then r.set j (f df.cols r) else r) mask df.rows
            | none => List.zipWith (fun b r => r ++ [if b then f df.cols r else dflt]) mask df.rows }

/-- `df[order]` reordered column selection (KeyError if one is missing),
followed by the reassignment loop of `raw` (lines 1204-1213). -/
def selectColsE (df : DF) (order : List String) : Except String DF :=
  if order.all (fun c => decide (c ∈ df.cols)) then
    .ok { df with cols := order,
                  rows := df.rows.map (fun r => order.map (fun c => getCell df.cols r c)) }
  else .error "KeyError"

/-- `pandas.unique` order: first occurrences, in order of appearance. -/
def uniqueFirst : List Val → List Val
  | [] => []
  | x :: xs => x :: (uniqueFirst xs).filter (fun y => decide (¬ y = x))

-- ==========================================================================
-- Format checks (ankidf.py lines 236-264).
-- ==========================================================================

/-- Message of `_check_df_format` for the `in_progress` state (lines 240-246). -/
def inProgressMsg : String :=
  "Previous call to normalize() or raw() did not terminate succesfully. This is usually a very bad sign, but you can try calling them again with the force option and see if that works."

/-- Message of `_check_df_format` for an unknown `_df_format` (lines 251-254). -/
def unknownDfFormatMsg : String := "Unknown value of _df_format"

/-- Message of `_check_our_format` (lines 258-264). -/
def notOursMsg : String :=
  "This operation is not supported for AnkiDataFrames in the raw format. Perhaps you called raw() before or used the raw=True option when loading? You can try switching to the required format using the normalize() method."

/-- `_invalid_table` (lines 236-237). -/
def invalidTableMsg : String := "Invalid table"

/-- `AnkiDataFrame._check_df_format` (lines 239-254). -/
def checkDfFormat (df : DF) : Except String Unit :=
  if df.dfFormat = "in_progress" then .error inProgressMsg
  else if df.dfFormat = "anki" then .ok ()
  else if df.dfFormat = "ours" then .ok ()
  else .error unknownDfFormatMsg

/-- `AnkiDataFrame._check_our_format` (lines 256-264). -/
def checkOurFormat (df : DF) : Except String Unit :=
  match checkDfFormat df with
  | .error e => .error e
  | .ok _ => if df.dfFormat = "ours" then .ok () else .error notOursMsg

-- ==========================================================================
-- ID accessors (ankidf.py lines 269-352 and 369-417).
-- ==========================================================================

/-- The `cid` property (lines 302-322). -/
def cidSeries (df : DF) : Except String (List Val) :=
  match checkOurFormat df with
  | .error e => .error e
  | .ok _ =>
    if df.table = "cards" then .ok df.index
    else if df.table = "revs" then
      if "cid" ∈ df.cols then .ok (df.getColVals "cid")
      else .error "You seem to have removed the cid column. That was not a good idea. Cannot get card ID anymore."
    else if df.table = "notes" then
      .error "Notes can belong to multiple cards. Therefore it is impossible to associate a card ID with them."
    else .error invalidTableMsg

/-- The `nid` property (lines 269-289). -/
def nidSeries (db : DB) (df : DF) : Except String (List Val) :=
  match checkOurFormat df with
  | .error e => .error e
  | .ok _ =>
    if df.table = "notes" then .ok df.index
    else if df.table = "cards" then
      if "nid" ∈ df.cols then .ok (df.getColVals "nid")
      else .error "You seem to have removed the nid column. That was not a good idea. Cannot get note ID anymore."
    else if df.table = "revs" then
      if "nid" ∈ df.cols then .ok (df.getColVals "nid")
      else match cidSeries df with
        | .error e => .error e
        | .ok cids => .ok (cids.map (mapViaII db.cid2nid))
    else .error invalidTableMsg

/-- The `rid` property (lines 340-352): unlike the other id accessors it
performs no `_check_our_format` call at all. -/
def ridSeries (df : DF) : Except String (List Val) :=
  if df.table = "revs" then .ok df.index
  else if "rid" ∈ df.cols then .ok (df.getColVals "rid")
  else .error "Review index is only available for the revs table by default."

/-- The `mid` property (lines 369-387). -/
def midSeries (db : DB) (df : DF) : Except String (List Val) :=
  match checkOurFormat df with
  | .error e => .error e
  | .ok _ =>
    if df.table = "notes" then
      if "nmodel" ∈ df.cols then .ok ((df.getColVals "nmodel").map (mapViaS (get_model2mid db)))
      else .error "You seem to have removed the nmodel column. That was not a good idea. Cannot get model ID anymore."
    else if df.table = "revs" ∨ df.table = "cards" then
      if "nmodel" ∈ df.cols then .ok ((df.getColVals "nmodel").map (mapViaS (get_model2mid db)))
      else match nidSeries db df with
        | .error e => .error e
        | .ok nids => .ok (nids.map (mapViaII db.nid2mid))
    else .error invalidTableMsg

/-- The `did` property (lines 398-417). -/
def didSeries (db : DB) (df : DF) : Except String (List Val) :=
  match checkOurFormat df with
  | .error e => .error e
  | .ok _ =>
    if df.table = "cards" then
      if "cdeck" ∈ df.cols then .ok ((df.getColVals "cdeck").map (mapViaS (get_deck2did db)))
      else .error "You seem to have removed the cdeck column. That was not a good idea. Cannot get deck ID anymore."
    else if df.table = "notes" then
      .error "Notes can belong to multiple decks. Therefore it is impossible to associate a deck ID with them."
    else if df.table = "revs" then
      match cidSeries df with
      | .error e => .error e
      | .ok cids => .ok (cids.map (mapViaII db.cid2did))
    else .error invalidTableMsg

-- ==========================================================================
-- Tag operations (ankidf.py lines 669-825); embedded as the copy-returning
-- variants (the in-place variant produces the same table).
-- ==========================================================================

/-- Message of `_check_tag_col` (lines 669-674). -/
def noTagColMsg : String :=
  "Tag column ntags does not exist. Perhaps you forgot to merge the notes into your table?"

/-- `has_tag` (lines 699-738); `tags=None` is `Option.none`. -/
def has_tag (df : DF) (tags : Option (List String)) : Except String (List Bool) :=
  match checkOurFormat df with
  | .error e => .error e
  | .ok _ =>
    if "ntags" ∈ df.cols then
      match tags with
      | some ts => .ok ((df.getColVals "ntags").map (fun v =>
          match v with
          | .vlist vs => ts.any (fun t => decide (Cell.s t ∈ vs))
          | _ => false))
      | none => .ok ((df.getColVals "ntags").map (fun v =>
          match v with
          | .vlist vs => decide (¬ vs = [])
          | _ => false))
    else .error noTagColMsg

/-- `remove_tag` (lines 797-825). -/
def remove_tag (df : DF) (tags : Option (List String)) : Except String DF :=
  match checkOurFormat df with
  | .error e => .error e
  | .ok _ =>
    if "ntags" ∈ df.cols then
      match tags with
      | some ts => .ok (df.mapCol "ntags" (fun v =>
          match v with
          | .vlist vs => .vlist (vs.filter (fun c => decide (¬ c ∈ ts.map Cell.s)))
          | v => v))
      | none => .ok (df.mapCol "ntags" (fun _ => .vlist []))
    else .error noTagColMsg

-- ==========================================================================
-- Comparison with a reference snapshot (ankidf.py lines 831-946).  The
-- `other=None` default (a fresh reload from the database) is supplied by the
-- caller as an explicit snapshot dataframe.
-- ==========================================================================

/-- Python `==` on two cells, as numpy evaluates it elementwise on an object
array: strings and integers compare by value, NaN is unequal to everything,
including itself. -/
def cellPyEq : Cell → Cell → Bool
  | .s a, .s b => decide (a = b)
  | .i a, .i b => decide (a = b)
  | _, _ => false

/-- Python `==` on two cell values: strings and integers by value, lists
elementwise (so a NaN inside a list makes the list unequal to itself), NaN
unequal to everything including itself, mixed kinds unequal. -/
def valPyEq : Val → Val → Bool
  | .s a, .s b => decide (a = b)
  | .i a, .i b => decide (a = b)
  | .vlist a, .vlist b =>
    decide (a.length = b.length) && (a.zip b).all (fun p => cellPyEq p.1 p.2)
  | _, _ => false

/-- `np.any(other_row != self_row, axis=1)` on one row pair: positional
elementwise object comparison under Python `!=`.  Because `nan != nan` is
True, a row containing NaN compares as modified even against itself. -/
def rowNe (a b : List Val) : Bool := (a.zip b).any (fun p => ! valPyEq p.1 p.2)

/-- A row every cell of which compares equal to itself under Python `==`:
no NaN anywhere, not even inside a list cell. -/
def rowSelfEq (r : List Val) : Bool := r.all (fun v => valPyEq v v)

/-- The write-back `result.loc[mask] = Series(bools, ...)`: walk the index,
consuming one computed boolean at every selected position and keeping `na`
elsewhere (label alignment equals positional alignment for duplicate-free
indexes). -/
def assignBack : List Val → (Val → Bool) → List Bool → Bool → List Bool
  | [], _, _, _ => []
  | x :: xs, p, bs, na =>
    if p x then bs.headD na :: assignBack xs p bs.tail na
    else na :: assignBack xs p bs na

/-- Core of `was_modified` (lines 845-865): compare the rows whose index is in
both tables, positionally over all columns of each frame, `na` elsewhere. -/
def wasModifiedRaw (df other : DF) (na : Bool) : List Bool :=
  assignBack df.index (fun i => decide (i ∈ other.index))
    (List.zipWith (fun o s => rowNe o.2 s.2)
      ((other.index.zip other.rows).filter (fun p => decide (p.1 ∈ df.index)))
      ((df.index.zip df.rows).filter (fun p => decide (p.1 ∈ other.index)))) na

/-- `was_modified` (lines 831-865), with the format check skipped when
`forceF` is set. -/
def was_modified (df other : DF) (na : Bool) (forceF : Bool) : Except String (List Bool) :=
  if forceF then .ok (wasModifiedRaw df other na)
  else match checkOurFormat df with
    | .error e => .error e
    | .ok _ => .ok (wasModifiedRaw df other na)

/-- `was_added` (lines 901-923). -/
def was_added (df other : DF) (forceF : Bool) : Except String (List Bool) :=
  if forceF then .ok (df.index.map (fun i => decide (¬ i ∈ other.index)))
  else match checkOurFormat df with
    | .error e => .error e
    | .ok _ => .ok (df.index.map (fun i => decide (¬ i ∈ other.index)))

/-- Ordering used by the `sorted` builtin on the (integer) index values of
`was_deleted`; non-integer values do not occur in the modelled tables. -/
def valLe : Val → Val → Bool
  | .i a, .i b => decide (a ≤ b)
  | _, _ => true

/-- Insertion sort by `valLe` (the `sorted` builtin). -/
def sortVals (l : List Val) : List Val :=
  l.insertionSort (fun a b => valLe a b)

/-- `was_deleted` (lines 925-946): `sorted(list(set(other.index) - set(self.index)))`. -/
def was_deleted (df other : DF) (forceF : Bool) : Except String (List Val) :=
  if forceF then .ok (sortVals (uniqueFirst (other.index.filter (fun i => decide (¬ i ∈ df.index)))))
  else match checkOurFormat df with
    | .error e => .error e
    | .ok _ => .ok (sortVals (uniqueFirst (other.index.filter (fun i => decide (¬ i ∈ df.index)))))

-- ==========================================================================
-- Mutation stamping (ankidf.py lines 951-970), as invoked from `raw` with
-- `reload` standing for the fresh reload of the same table from storage.
-- ==========================================================================

/-- `_set_usn` (lines 951-956). -/
def set_usn (reload df : DF) : DF :=
  df.updateMask (wasModifiedRaw df reload true)
    (((lookupA (columnsAnki2Ours df.table) "usn").getD ""))
    (fun _ _ => Val.i (-1)) .nan

/-- `_set_mod` (lines 958-964). -/
def set_mod (reload : DF) (now : Int) (df : DF) : DF :=
  if df.table = "cards" ∨ df.table = "notes" then
    df.updateMask (wasModifiedRaw df reload true)
      (((lookupA (columnsAnki2Ours df.table) "mod").getD ""))
      (fun _ _ => Val.i now) .nan
  else df

/-- Python truthiness of a cell (`bool(x)`): the empty string, zero and the
empty list are falsy; NaN is truthy (`bool(float("nan"))` is True). -/
def valFalsy : Val → Bool
  | .s s => decide (s = "")
  | .i k => decide (k = 0)
  | .vlist l => decide (l = [])
  | .nan => false

/-- `_set_guid` (lines 967-970).  On a notes table the source evaluates
`self.loc[~self["nguid"].apply(bool)].apply(generate_guid)`.  `generate_guid`
takes no arguments (it is called as `generate_guid()` at line 1429), so
`DataFrame.apply` raises TypeError as soon as the selection is non-empty; on
an empty selection pandas discards the probe call and nothing happens.  In
either case the generated guids are never assigned back. -/
def set_guid (df : DF) : Except String DF :=
  if df.table = "notes" ∧ (df.getColVals "nguid").any valFalsy then .error "TypeError"
  else .ok df

-- ==========================================================================
-- Field sub-format conversions (ankidf.py lines 544-664), embedded as the
-- copy-returning variants.
-- ==========================================================================

/-- Message of lines 573-578 and 634-639. -/
def notSuccessfulMsg : String :=
  "It looks like the last call to fields_as_list or fields_as_columns was not successful, so you better start over."

/-- Message of lines 582-584 and 643-645. -/
def unknownFieldsFormatMsg : String := "Unknown _fields_format"

/-- Message of lines 562-565. -/
def noNfldsMsg : String := "Could not find fields column nflds."

/-- The column count of `pandas.DataFrame(lists)`: the longest list among
the cells (a non-list cell contributes one column). -/
def cellWidth : Val → Nat
  | .vlist vs => vs.length
  | _ => 1

/-- Width of the frame `pandas.DataFrame(df_model["nflds"].tolist())` built
for one model (lines 594 and 1151): the widths of the `nflds` cells of the
rows of this model, folded with max. -/
def modelFieldWidth (midVals flds : List Val) (mid : Val) : Nat :=
  (((midVals.zip flds).filter (fun p => decide (p.1 = mid))).map
    (fun p => cellWidth p.2)).foldl max 0

/-- One model iteration of the `fields_as_columns` loop (lines 590-606):
models with id 0 are skipped, the field-name list comes from the resolver
(KeyError if the model is unknown), the per-field columns are created, and
`fields[ifield]` (line 602) raises KeyError when the field frame of this
model is narrower than the declared field-name list. -/
def explodeStep (db : DB) (st : DF) (mid : Val) : Except String DF :=
  if mid = Val.i 0 then .ok st
  else match mid with
    | .i m =>
      match lookupA db.mid2fields m with
      | none => .error "KeyError"
      | some fieldNames =>
        let st1 := fieldNames.foldl (fun a f => a.ensureCol (fieldColPfx ++ f) (Val.s "")) st
        match midSeries db st1 with
        | .error e => .error e
        | .ok midVals =>
          if modelFieldWidth midVals (st1.getColVals "nflds") mid < fieldNames.length then
            .error "KeyError"
          else
            let mask := midVals.map (fun v => decide (v = mid))
            .ok ((List.range fieldNames.length).foldl (fun a i =>
              a.updateMask mask (fieldColPfx ++ fieldNames.getD i "")
                (fun cols r =>
                  match getCell cols r "nflds" with
                  | .vlist vs => (vs.getD i Cell.nan).toVal
                  | _ => .nan) .nan) st1)
    | _ => .error "KeyError"

/-- `fields_as_columns` (lines 544-608). -/
def fields_as_columns (db : DB) (df : DF) : Except String DF :=
  match checkOurFormat df with
  | .error e => .error e
  | .ok _ =>
    if ¬ ("nflds" ∈ df.cols) then .error noNfldsMsg
    else if df.fieldsFormat = "columns" then .ok df
    else if df.fieldsFormat = "in_progress" then .error notSuccessfulMsg
    else if ¬ (df.fieldsFormat = "list") then .error unknownFieldsFormatMsg
    else
      let df1 := { df with fieldsFormat := "in_progress" }
      match midSeries db df1 with
      | .error e => .error e
      | .ok mids0 =>
        match (uniqueFirst mids0).foldlM (explodeStep db) df1 with
        | .error e => .error e
        | .ok df2 =>
          .ok { df2.filterCols (fun c => decide (¬ c = "nflds")) with fieldsFormat := "columns" }

/-- One model iteration of the `fields_as_list` loop (lines 650-662): select
the prefixed field columns (KeyError if any is missing), pack them into the
`nflds` column on the rows of this model, and record the columns to drop. -/
def collapseStep (db : DB) (st : DF × List String) (mid : Val) : Except String (DF × List String) :=
  match mid with
  | .i m =>
    match lookupA db.mid2fields m with
    | none => .error "KeyError"
    | some fieldNames =>
      let pfs := fieldNames.map (fun f => fieldColPfx ++ f)
      if ¬ (pfs.all (fun c => decide (c ∈ st.1.cols))) then .error "KeyError"
      else match midSeries db st.1 with
        | .error e => .error e
        | .ok midVals =>
          let mask := midVals.map (fun v => decide (v = mid))
          .ok (st.1.updateMask mask "nflds"
                 (fun cols r => .vlist (pfs.map (fun c => (getCell cols r c).toCell))) .nan,
               st.2 ++ pfs)
  | _ => .error "KeyError"

/-- `fields_as_list` (lines 610-664).  Note the terminal assignment of the
source, line 664: `self._fields_format = "fields"` (not `"list"`). -/
def fields_as_list (db : DB) (df : DF) : Except String DF :=
  match checkOurFormat df with
  | .error e => .error e
  | .ok _ =>
    if df.fieldsFormat = "list" then .ok df
    else if df.fieldsFormat = "in_progress" then .error notSuccessfulMsg
    else if ¬ (df.fieldsFormat = "columns") then .error unknownFieldsFormatMsg
    else
      let df1 := { df with fieldsFormat := "in_progress" }
      match midSeries db df1 with
      | .error e => .error e
      | .ok mids0 =>
        match (uniqueFirst mids0).foldlM (collapseStep db) (df1, []) with
        | .error e => .error e
        | .ok st =>
          .ok { st.1.filterCols (fun c => decide (¬ c ∈ st.2)) with fieldsFormat := "fields" }

-- ==========================================================================
-- Cell-level codec steps used by normalize and raw.
-- ==========================================================================

/-- `self["ntags"].apply(lambda joined: [item for item in joined.split(" ") if item])`
(normalize, lines 1049-1052). -/
def splitTagsCell : Val → Val
  | .s t => .vlist ((splitTags t).map Cell.s)
  | _ => .nan

/-- `self["nflds"].str.split("\x1f")` (normalize, line 1059). -/
def splitFieldsCell : Val → Val
  | .s t => .vlist ((splitFields t).map Cell.s)
  | _ => .nan

/-- A list cell whose elements are all strings, as a string list. -/
def cellStrs : List Cell → Option (List String)
  | [] => some []
  | .s v :: rest => (cellStrs rest).map (fun tl => v :: tl)
  | _ => none

/-- `self["nflds"].str.join("\x1f")` (raw, line 1159): NaN on non-list cells or
lists containing non-strings, as the pandas str accessor does. -/
def joinFieldsCell : Val → Val
  | .vlist vs =>
    match cellStrs vs with
    | some ss => .s (joinFields ss)
    | none => .nan
  | _ => .nan

/-- `self["ntags"].str.join(" ")` (raw, line 1165). -/
def joinTagsCell : Val → Val
  | .vlist vs =>
    match cellStrs vs with
    | some ss => .s (joinTags ss)
    | none => .nan
  | _ => .nan

/-- `self["nflds"].apply(lambda lst: field_checksum(lst[0]))` (raw, lines
1155-1157); the empty-list and non-string branches would raise in Python and
are unreachable (a split field list is never empty). -/
def csumCell : Val → Val
  | .vlist (.s x :: _) => .i (field_checksum x)
  | _ => .nan

-- ==========================================================================
-- normalize (ankidf.py lines 975-1069), embedded as the copy-returning
-- variant; `_columns.dtype_casts` is modelled as empty (the spec, section
-- 4.1, does not fix any cast and the module is not among the sources), so
-- the dtype pass is the identity.
-- ==========================================================================

/-- The conversion pipeline of `normalize` (lines 1003-1069), run after the
format guards. -/
def normalizeBody (db : DB) (df : DF) : Except String DF :=
  if ¬ (df.table = "cards" ∨ df.table = "revs" ∨ df.table = "notes") then .error invalidTableMsg
  else
    let d0 : DF := { df with dfFormat := "in_progress" }
    let d1 := d0.renameCols (columnsAnki2Ours d0.table)
    let d2 := (valueMapsFor d1.table).foldl (fun a p => a.mapCol p.1 (mapViaI p.2)) d1
    match setIndexE d2 (table2index d2.table) with
    | .error e => .error e
    | .ok d3 =>
      let d4 :=
        if d3.table = "cards" then
          (fun dX => dX.setColVals "codeck" ((dX.getColVals "codid").map (mapViaI db.did2deck)))
            (d3.setColVals "cdeck" ((d3.getColVals "did").map (mapViaI db.did2deck)))
        else if d3.table = "notes" then
          d3.setColVals "nmodel" ((d3.getColVals "mid").map (mapViaI db.mid2model))
        else d3
      let d5 := if d4.table = "notes" then d4.mapCol "ntags" splitTagsCell else d4
      let d6 := if d5.table = "notes" then { d5.mapCol "nflds" splitFieldsCell with fieldsFormat := "list" }
                else d5
      .ok { d6.dropColsNotIn (ourColumns d6.table) with dfFormat := "ours" }

/-- `normalize` (lines 975-1069). -/
def normalize (db : DB) (df : DF) (force : Bool) : Except String DF :=
  if force then normalizeBody db df
  else match checkDfFormat df with
    | .error e => .error e
    | .ok _ => if df.dfFormat = "ours" then .ok df else normalizeBody db df

-- ==========================================================================
-- raw (ankidf.py lines 1071-1215), embedded as the copy-returning variant.
-- `reload` is the fresh reload of the same table from storage that
-- `was_modified` builds when called with `other=None` (lines 848-851), and
-- `now` is the current integer timestamp `int(time.time())`.
-- ==========================================================================

/-- The value written into `nsfld` for one row: position `sfield` of the
row cell holding the field list (`fields[sfield]`, line 1153; a missing
position or a non-list cell is NaN in the pandas frame). -/
def sfldAssign (sf : Nat) : Val → Val
  | .vlist vs => (vs.getD sf Cell.nan).toVal
  | _ => .nan

/-- One model iteration of the sort-field restoration loop of `raw` (lines
1147-1153): `sfield = mid2sfld[mid]` (KeyError if missing), then write
`nsfld` on the rows of this model from position `sfield` of the field list;
`fields[sfield]` (line 1153) raises KeyError when the field frame of this
model is narrower than `sfield`. -/
def sfldStep (db : DB) (acc : DF) (mid : Val) : Except String DF :=
  match mid with
  | .i m =>
    match lookupA db.mid2sortfield m with
    | none => .error "KeyError"
    | some sf =>
      if modelFieldWidth (acc.getColVals "mid") (acc.getColVals "nflds") mid ≤ sf then
        .error "KeyError"
      else
        .ok (acc.updateMask ((acc.getColVals "mid").map (fun v => decide (v = mid))) "nsfld"
          (fun cols r => sfldAssign sf (getCell cols r "nflds")) .nan)
  | _ => .error "KeyError"

/-- The sort-field restoration loop of `raw` (lines 1146-1153), iterating over
`list(self["mid"].unique())`. -/
def restoreSortField (db : DB) (df : DF) : Except String DF :=
  (uniqueFirst (df.getColVals "mid")).foldlM (sfldStep db) df

/-- The notes-only fields block of `raw` (lines 1135-1159): force a conversion
if the sub-format is not `list` (the source calls `fields_as_columns` here),
fail if the sub-format is still not `list`, restore the sort field, recompute
the checksum column, and re-join the field lists. -/
def notesFieldBlock (db : DB) (d : DF) : Except String DF :=
  match (if d.fieldsFormat = "list" then .ok d else fields_as_columns db d) with
  | .error e => .error e
  | .ok d1 =>
    if ¬ (d1.fieldsFormat = "list") then .error notSuccessfulMsg
    else match restoreSortField db d1 with
      | .error e => .error e
      | .ok d2 =>
        let d3 := d2.setColVals "ncsum" ((d2.getColVals "nflds").map csumCell)
        .ok (d3.mapCol "nflds" joinFieldsCell)

/-- Final steps of `raw` (lines 1200-1215): drop and rearrange to the exact
native column list, then mark the format as `anki`. -/
def rawFinish (d9 : DF) : Except String DF :=
  match (if d9.rows.length = 0 then .ok { d9 with cols := ankiColumns d9.table, rows := [] }
         else selectColsE d9 (ankiColumns d9.table)) with
  | .error e => .error e
  | .ok dA => .ok { dA with dfFormat := "anki" }

/-- Steps of `raw` from the tag re-join to the end (lines 1161-1215). -/
def rawTail (d5 : DF) : Except String DF :=
  let d6 := if d5.table = "notes" ∧ "nflds" ∈ d5.cols then d5.mapCol "ntags" joinTagsCell else d5
  let d7 := (valueMapsFor d6.table).foldl
    (fun a p => if p.1 ∈ a.cols then a.mapCol p.1 (mapViaS (invert_dict p.2)) else a) d6
  let d8 := (d7.renameCols (invert_dict (columnsAnki2Ours d7.table))).renameCols [("index", "id")]
  let d9 :=
    if d8.table = "cards" ∨ d8.table = "notes" then
      (d8.setColConst "data" (Val.s "")).setColConst "flags" (Val.i 0)
    else d8
  rawFinish d9

/-- Steps of `raw` from the id re-derivation through the notes fields block
(lines 1114-1159). -/
def rawMid (db : DB) (d2 : DF) : Except String DF :=
  let d3 :=
    if d2.table = "cards" then
      (fun dX => dX.setColVals "odid" ((dX.getColVals "codeck").map (mapViaS (get_deck2did db))))
        (d2.setColVals "did" ((d2.getColVals "cdeck").map (mapViaS (get_deck2did db))))
    else d2
  let d4 :=
    if d3.table = "notes" then
      d3.setColVals "mid" ((d3.getColVals "nmodel").map (mapViaS (get_model2mid db)))
    else d3
  match (if d4.table = "notes" then notesFieldBlock db d4 else .ok d4) with
  | .error e => .error e
  | .ok d5 => rawTail d5

/-- The conversion pipeline of `raw` (lines 1098-1215), run after the format
guards: stamping, index reset, then the remaining steps. -/
def rawBody (db : DB) (reload : DF) (now : Int) (df : DF) : Except String DF :=
  if ¬ (df.table = "revs" ∨ df.table = "cards" ∨ df.table = "notes") then .error invalidTableMsg
  else
    match set_guid (set_usn reload (set_mod reload now { df with dfFormat := "in_progress" })) with
    | .error e => .error e
    | .ok d1 => rawMid db d1.resetIndex

/-- `raw` (lines 1071-1215). -/
def raw (db : DB) (reload : DF) (now : Int) (df : DF) (force : Bool) : Except String DF :=
  if force then rawBody db reload now df
  else match checkDfFormat df with
    | .error e => .error e
    | .ok _ => if df.dfFormat = "anki" then .ok df else rawBody db reload now df

-- ==========================================================================
-- _get_id (ankidf.py lines 1244-1250).
-- ==========================================================================

/-- Whether a value is an integer at least `idx`. -/
def isGe (idx : Int) : Val → Bool
  | .i k => decide (idx ≤ k)
  | _ => false

/-- Count of integer index entries at least `idx`, the termination measure of
the `while idx in self.index` loop. -/
def geCount (index : List Val) (idx : Int) : Nat :=
  (index.filter (isGe idx)).length

theorem isGe_imp (idx : Int) (v : Val) (h : isGe (idx + 1) v = true) : isGe idx v = true := by
  cases v with
  | i k => simp only [isGe, decide_eq_true_eq] at h ⊢; omega
  | s v => simpa [isGe] using h
  | vlist v => simpa [isGe] using h
  | nan => simpa [isGe] using h

theorem geCount_mono (index : List Val) (idx : Int) :
    geCount index (idx + 1) ≤ geCount index idx :=
  (List.monotone_filter_right index (isGe_imp idx)).length_le

theorem geCount_lt (index : List Val) (idx : Int) (h : Val.i idx ∈ index) :
    geCount index (idx + 1) < geCount index idx := by
  unfold geCount
  induction index with
  | nil => cases h
  | cons a l ih =>
    rcases List.mem_cons.mp h with h1 | h1
    · subst h1
      have h2 : ¬ isGe (idx + 1) (Val.i idx) = true := by
        simp only [isGe, decide_eq_true_eq]; omega
      have h3 : isGe idx (Val.i idx) = true := by
        simp only [isGe, decide_eq_true_eq]
        omega
      have h4 := geCount_mono l idx
      unfold geCount at h4
      rw [List.filter_cons_of_neg h2, List.filter_cons_of_pos h3]
      simp only [List.length_cons]
      omega
    · have hrec := ih h1
      by_cases hk1 : isGe (idx + 1) a = true
      · have hk2 := isGe_imp idx a hk1
        rw [List.filter_cons_of_pos hk1, List.filter_cons_of_pos hk2]
        simpa using hrec
      · rw [List.filter_cons_of_neg (by simpa using hk1)]
        by_cases hk2 : isGe idx a = true
        · rw [List.filter_cons_of_pos hk2]
          simp only [List.length_cons]
          omega
        · rw [List.filter_cons_of_neg (by simpa using hk2)]
          exact hrec

/-- The `while idx in self.index: idx += 1` loop of `_get_id` (lines
1248-1249). -/
def getIdLoop (index : List Val) (idx : Int) : Int :=
  if h : Val.i idx ∈ index then getIdLoop index (idx + 1) else idx
termination_by geCount index idx
decreasing_by exact geCount_lt index idx h

/-- `_get_id` (lines 1244-1250); `now` stands for the millisecond clock value
`int(1000*time.time())`. -/
def _get_id (df : DF) (now : Int) : Int := getIdLoop df.index now


-- ==========================================================================
-- Concrete example data used by the witnesses and counterexamples.
-- ==========================================================================

/-- A small resolver: one deck, one model `M` with two fields and sort field 0. -/
def exDb : DB := ⟨[(1, "Default")], [(1, "M")], [(1, ["Front", "Back"])], [(1, 0)], [], [], []⟩

/-- A one-row notes table in convenience format (fields as list; the field
list is as wide as model M declares). -/
def exNotesOurs : DF :=
  ⟨ourColumns "notes",
   [[Val.s "g", Val.i 5, Val.i 7, Val.vlist [Cell.s "a"],
     Val.vlist [Cell.s "hello", Cell.s "world"], Val.s "M"]],
   [Val.i 10], "nid", "notes", "ours", "list"⟩

/-- The same table marked `in_progress`. -/
def exNotesInProgress : DF := { exNotesOurs with dfFormat := "in_progress" }

/-- A one-row notes table in convenience format with fields as columns. -/
def exNotesColsFmt : DF :=
  ⟨["nguid", "nmod", "nusn", "ntags", "nfld_Front", "nfld_Back", "nmodel"],
   [[Val.s "g", Val.i 5, Val.i 7, Val.vlist [], Val.s "hello", Val.s "world", Val.s "M"]],
   [Val.i 10], "nid", "notes", "ours", "columns"⟩

/-- A one-row notes table in convenience format whose guid is empty. -/
def exNotesNoGuid : DF :=
  ⟨ourColumns "notes",
   [[Val.s "", Val.i 5, Val.i 7, Val.vlist [], Val.vlist [Cell.s "hello"], Val.s "M"]],
   [Val.i 10], "nid", "notes", "ours", "list"⟩

/-- A one-row notes table in native format. -/
def exNotesAnki : DF :=
  ⟨ankiColumns "notes",
   [[Val.i 10, Val.s "g", Val.i 1, Val.i 5, Val.i 7, Val.s "a b", Val.s "hello",
     Val.s "hello", Val.i (field_checksum "hello"), Val.i 3, Val.s "xyz"]],
   [Val.i 0], "", "notes", "anki", "anki"⟩

/-- A one-row notes table in native format whose tags cell has a leading
space (the canonical Anki encoding stores tags with surrounding spaces). -/
def exNotesAnkiBadTags : DF :=
  ⟨ankiColumns "notes",
   [[Val.i 10, Val.s "g", Val.i 1, Val.i 5, Val.i 7, Val.s " a", Val.s "hello",
     Val.s "hello", Val.i (field_checksum "hello"), Val.i 3, Val.s "xyz"]],
   [Val.i 0], "", "notes", "anki", "anki"⟩

/-- A revs table marked `in_progress`. -/
def exRevsInProgress : DF :=
  ⟨ourColumns "revs",
   [[Val.i 20, Val.i 7, Val.i 3, Val.i 100, Val.i 50, Val.i 2500, Val.i 3000, Val.s "review"]],
   [Val.i 30], "rid", "revs", "in_progress", "anki"⟩

/-- Reference snapshot pair for the modification-detection witness: two rows,
the second differs in exactly one cell. -/
def exSnapA : DF :=
  ⟨["c1"], [[Val.i 1], [Val.i 2]], [Val.i 10, Val.i 11], "nid", "notes", "ours", "list"⟩

/-- See `exSnapA`. -/
def exSnapB : DF :=
  ⟨["c1"], [[Val.i 1], [Val.i 3]], [Val.i 10, Val.i 11], "nid", "notes", "ours", "list"⟩

/-- Snapshot pair whose first rows are identical but contain a NaN cell, and
whose second rows differ. -/
def exSnapNanA : DF :=
  ⟨["c1", "c2"], [[Val.nan, Val.i 1], [Val.i 2, Val.i 2]], [Val.i 10, Val.i 11],
   "nid", "notes", "ours", "list"⟩

/-- See `exSnapNanA`. -/
def exSnapNanB : DF :=
  ⟨["c1", "c2"], [[Val.nan, Val.i 1], [Val.i 2, Val.i 3]], [Val.i 10, Val.i 11],
   "nid", "notes", "ours", "list"⟩

/-- Example table for the id-generator witness. -/
def exIdxDF : DF := ⟨[], [], [Val.i 5, Val.i 6], "", "notes", "ours", "list"⟩

-- ==========================================================================
-- C5: the field codec pair.
-- ==========================================================================

/-- C5 counterexample: the claim quantifies over every list of strings free of
the 0x1F byte, but for the empty list the code gives
`splitFields (joinFields []) = [""]` (Python `"".split(sep) == [""]`), not
`[]`. -/
theorem C5_counterexample : ¬ (splitFields (joinFields []) = ([] : List String)) := by
  decide

/-- C5 (amended): for every nonempty list of strings in which no element
contains the 0x1F byte, splitting the 0x1F-joined string recovers the list
exactly: the field join/split pair used by normalize and raw are exact
inverses on nonempty field lists. -/
theorem C5_split_join_exact (xs : List String) (h1 : ¬ xs = [])
    (h2 : ∀ s ∈ xs, ¬ fieldSep ∈ s.data) :
    splitFields (joinFields xs) = xs := by
  unfold splitFields joinFields
  have hdata : (String.mk (List.intercalate [fieldSep] (xs.map String.data))).data
      = List.intercalate [fieldSep] (xs.map String.data) := rfl
  rw [hdata, List.splitOn_intercalate (xs.map String.data) fieldSep
    (fun l hl => by
      rcases List.mem_map.mp hl with ⟨s, hs, hrw⟩
      rw [← hrw]
      exact h2 s hs)
    (by simpa using h1)]
  have hid : ∀ s : String, String.mk s.data = s := fun s => by cases s; rfl
  simp [List.map_map, Function.comp_def, hid]

/-- Witness for C5_split_join_exact at a concrete input. -/
theorem C5_split_join_exact_witness :
    ¬ (["front", "back"] : List String) = [] ∧ splitFields (joinFields ["front", "back"]) = ["front", "back"] :=
  ⟨by decide, C5_split_join_exact ["front", "back"] (by decide) (by decide)⟩

-- ==========================================================================
-- C7: idempotence of the no-force conversions.
-- ==========================================================================

/-- C7: calling normalize without force on a table already in ours format
returns it unchanged, and calling raw without force on a table already in
anki format returns it unchanged (the source only logs a warning). -/
theorem C7_noop (db : DB) (reload df : DF) (now : Int) :
    (df.dfFormat = "ours" → normalize db df false = .ok df) ∧
    (df.dfFormat = "anki" → raw db reload now df false = .ok df) := by
  constructor
  · intro h
    simp [normalize, checkDfFormat, h]
  · intro h
    simp [raw, checkDfFormat, h]

/-- Witness for C7_noop at concrete inputs. -/
theorem C7_noop_witness :
    exNotesOurs.dfFormat = "ours" ∧ exNotesAnki.dfFormat = "anki" ∧
    normalize exDb exNotesOurs false = .ok exNotesOurs ∧
    raw exDb exNotesOurs 0 exNotesAnki false = .ok exNotesAnki :=
  ⟨rfl, rfl, (C7_noop exDb exNotesOurs exNotesOurs 0).1 rfl,
   (C7_noop exDb exNotesOurs exNotesAnki 0).2 rfl⟩

-- ==========================================================================
-- C8: every format-checking operation fails fast on an in_progress table.
-- ==========================================================================

/-- C8: when the format state is in_progress, every non-forced
format-dependent operation that checks the format first (normalize, raw, the
nid/cid/mid/did accessors, the field sub-format conversions, the tag
operations, and the comparison operations) fails fast with the in_progress
error instead of operating on the partially converted data. -/
theorem C8_in_progress_fails (db : DB) (reload df : DF) (now : Int)
    (tags : Option (List String)) (h : df.dfFormat = "in_progress") :
    normalize db df false = .error inProgressMsg ∧
    raw db reload now df false = .error inProgressMsg ∧
    nidSeries db df = .error inProgressMsg ∧
    cidSeries df = .error inProgressMsg ∧
    midSeries db df = .error inProgressMsg ∧
    didSeries db df = .error inProgressMsg ∧
    fields_as_columns db df = .error inProgressMsg ∧
    fields_as_list db df = .error inProgressMsg ∧
    has_tag df tags = .error inProgressMsg ∧
    remove_tag df tags = .error inProgressMsg ∧
    was_modified df reload true false = .error inProgressMsg ∧
    was_added df reload false = .error inProgressMsg ∧
    was_deleted df reload false = .error inProgressMsg := by
  refine ⟨?_, ?_, ?_, ?_, ?_, ?_, ?_, ?_, ?_, ?_, ?_, ?_, ?_⟩ <;>
    simp [normalize, raw, nidSeries, cidSeries, midSeries, didSeries, fields_as_columns,
      fields_as_list, has_tag, remove_tag, was_modified, was_added, was_deleted,
      checkOurFormat, checkDfFormat, h]

/-- Witness for C8_in_progress_fails at a concrete input. -/
theorem C8_in_progress_fails_witness :
    exNotesInProgress.dfFormat = "in_progress" ∧
    normalize exDb exNotesInProgress false = .error inProgressMsg :=
  ⟨rfl, (C8_in_progress_fails exDb exNotesInProgress exNotesInProgress 0 none rfl).1⟩

-- ==========================================================================
-- C9: the rid accessor performs no format check.
-- ==========================================================================

/-- C9: unlike nid, cid, mid, did (covered by the in_progress theorem), the
rid accessor never inspects the format state: its result is invariant under
any change of the format tag; on a revs table it returns the index, and on
any other table it returns the rid column when present and raises
otherwise. -/
theorem C9_rid_no_format_check (df : DF) (s : String) :
    ridSeries { df with dfFormat := s } = ridSeries df ∧
    (df.table = "revs" → ridSeries df = .ok df.index) ∧
    (¬ df.table = "revs" → "rid" ∈ df.cols → ridSeries df = .ok (df.getColVals "rid")) ∧
    (¬ df.table = "revs" → ¬ "rid" ∈ df.cols →
      ridSeries df = .error "Review index is only available for the revs table by default.") := by
  refine ⟨by simp [ridSeries, DF.getColVals], ?_, ?_, ?_⟩
  · intro h
    simp [ridSeries, h]
  · intro h1 h2
    simp [ridSeries, h1, h2]
  · intro h1 h2
    simp [ridSeries, h1, h2]

/-- Witness for C9_rid_no_format_check at a concrete input: an in_progress
revs table still answers rid with its index. -/
theorem C9_rid_no_format_check_witness :
    exRevsInProgress.table = "revs" ∧ exRevsInProgress.dfFormat = "in_progress" ∧
    ridSeries exRevsInProgress = .ok exRevsInProgress.index :=
  ⟨rfl, rfl, (C9_rid_no_format_check exRevsInProgress "anki").2.1 rfl⟩

-- ==========================================================================
-- C10: freshness of generated ids.
-- ==========================================================================

theorem getIdLoop_spec (index : List Val) (idx : Int) :
    ¬ Val.i (getIdLoop index idx) ∈ index ∧ idx ≤ getIdLoop index idx ∧
    ∀ k, idx ≤ k → k < getIdLoop index idx → Val.i k ∈ index := by
  generalize hn : geCount index idx = n
  induction n using Nat.strong_induction_on generalizing idx with
  | _ n ih =>
    rw [getIdLoop]
    by_cases hmem : Val.i idx ∈ index
    · rw [dif_pos hmem]
      have hlt : geCount index (idx + 1) < n := hn ▸ geCount_lt index idx hmem
      obtain ⟨h1, h2, h3⟩ := ih (geCount index (idx + 1)) hlt (idx + 1) rfl
      refine ⟨h1, by omega, ?_⟩
      intro k hk1 hk2
      by_cases hke : k = idx
      · rw [hke]; exact hmem
      · exact h3 k (by omega) hk2
    · rw [dif_neg hmem]
      exact ⟨hmem, le_refl idx, fun k hk1 hk2 => absurd hk2 (by omega)⟩

/-- C10: the id generator returns an integer that is not present in the
index: it starts from the supplied clock value and increments exactly until
the candidate is unused (every skipped candidate was present), so the ids
auto-assigned by add_notes never collide with existing primary keys. -/
theorem C10_get_id_fresh (df : DF) (now : Int) :
    ¬ Val.i (_get_id df now) ∈ df.index ∧ now ≤ _get_id df now ∧
    ∀ k, now ≤ k → k < _get_id df now → Val.i k ∈ df.index :=
  getIdLoop_spec df.index now

/-- Witness for C10_get_id_fresh at a concrete input. -/
theorem C10_get_id_fresh_witness : ¬ Val.i (_get_id exIdxDF 5) ∈ exIdxDF.index :=
  (C10_get_id_fresh exIdxDF 5).1

-- ==========================================================================
-- C2: raw on a notes table whose fields are in columns sub-format.
-- ==========================================================================

/-- C2 (code bug): on a notes table in convenience format whose field
sub-format is columns, raw never applies the inverse of
explodeFieldsToColumns: line 1137 of the source calls `fields_as_columns`
(the forward conversion) instead of `fields_as_list`, and since `_df_format`
is already marked in_progress at that point, that call raises the
in_progress error immediately, so raw always fails on such a table. -/
theorem C2_raw_columns_always_fails :
    raw exDb exNotesColsFmt 99 exNotesColsFmt false = .error inProgressMsg := by
  rfl

-- ==========================================================================
-- C3: the field sub-format state machine.
-- ==========================================================================

/-- C3 (code bug): a successful collapse does not end in the `list`
sub-format: line 664 of the source sets `_fields_format = "fields"`, a value
unknown to every other check in the class; the explode direction does end in
`columns`. -/
theorem C3_collapse_ends_in_fields :
    (fields_as_list exDb exNotesColsFmt).map DF.fieldsFormat = Except.ok "fields" ∧
    ¬ (fields_as_list exDb exNotesColsFmt).map DF.fieldsFormat = Except.ok "list" ∧
    (fields_as_columns exDb exNotesOurs).map DF.fieldsFormat = Except.ok "columns" := by
  refine ⟨by rfl, by decide, by rfl⟩

-- ==========================================================================
-- C4: guid stamping during raw.
-- ==========================================================================

/-- C4 (code bug): raw does not stamp a fresh guid onto a notes row whose
nguid cell is empty -- it raises instead.  `_set_guid` (line 970) evaluates
`self.loc[mask].apply(generate_guid)`; `generate_guid` takes no arguments
(line 1429 calls it as `generate_guid()`), so `DataFrame.apply` raises
TypeError as soon as the mask selects a row, and the conversion aborts with
the format left `in_progress`.  Even absent that, the computed guids are
discarded, never assigned. -/
theorem C4_guid_raises :
    raw exDb exNotesNoGuid 99 exNotesNoGuid false = .error "TypeError" := by
  decide


-- ==========================================================================
-- C6: modification detection against a snapshot.
-- ==========================================================================

theorem cellPyEq_eq (a b : Cell) (h : cellPyEq a b = true) : a = b := by
  cases a <;> cases b <;> simp [cellPyEq] at h <;> simp [h]

theorem listCellEq : ∀ (a b : List Cell), a.length = b.length →
    (a.zip b).all (fun p => cellPyEq p.1 p.2) = true → a = b
  | [], [], _, _ => rfl
  | [], _ :: _, h, _ => by simp at h
  | _ :: _, [], h, _ => by simp at h
  | x :: xs, y :: ys, h, hall => by
    simp only [List.zip_cons_cons, List.all_cons, Bool.and_eq_true] at hall
    rw [cellPyEq_eq x y hall.1, listCellEq xs ys (by simpa using h) hall.2]

/-- Python equality is stricter than structural equality: cells comparing
equal under `==` are the same cell (the converse fails on NaN). -/
theorem valPyEq_eq (a b : Val) (h : valPyEq a b = true) : a = b := by
  cases a <;> cases b <;> simp [valPyEq] at h ⊢
  case vlist.vlist la lb => exact listCellEq la lb h.1 (by
    rw [List.all_eq_true]
    intro p hp
    exact h.2 p.1 p.2 hp)
  all_goals simp [h]

/-- A self-equal row (no NaN) compares unmodified against itself. -/
theorem rowNe_self : ∀ (r : List Val), rowSelfEq r = true → rowNe r r = false
  | [], _ => rfl
  | x :: xs, h => by
    simp only [rowSelfEq, List.all_cons, Bool.and_eq_true] at h
    have ih := rowNe_self xs (by simp [rowSelfEq, h.2])
    simp only [rowNe, List.zip_cons_cons, List.any_cons, Bool.or_eq_false_iff] at ih ⊢
    exact ⟨by simp [h.1], ih⟩

/-- Rows that are structurally different compare as modified (Python
inequality is implied by structural inequality on same-length rows). -/
theorem rowNe_of_ne : ∀ (a b : List Val), a.length = b.length → ¬ a = b → rowNe a b = true
  | [], [], _, h2 => absurd rfl h2
  | [], _ :: _, h1, _ => by simp at h1
  | _ :: _, [], h1, _ => by simp at h1
  | x :: xs, y :: ys, h1, h2 => by
    simp only [rowNe, List.zip_cons_cons, List.any_cons, Bool.or_eq_true]
    by_cases hxy : valPyEq x y = true
    · obtain rfl := valPyEq_eq x y hxy
      have hne : ¬ xs = ys := fun hc => h2 (by rw [hc])
      have ht := rowNe_of_ne xs ys (by simpa using h1) hne
      simp only [rowNe] at ht
      exact Or.inr ht
    · exact Or.inl (by simpa using hxy)

theorem assignBack_all (l : List Val) (p : Val → Bool) (bs : List Bool) (na : Bool)
    (hp : ∀ x ∈ l, p x = true) (hlen : bs.length = l.length) : assignBack l p bs na = bs := by
  induction l generalizing bs with
  | nil =>
    cases bs with
    | nil => rfl
    | cons b bs2 => simp at hlen
  | cons x xs ih =>
    cases bs with
    | nil => simp at hlen
    | cons b bs2 =>
      simp only [assignBack, hp x (by simp), if_true, List.headD_cons, List.tail_cons]
      rw [ih bs2 (fun y hy => hp y (by simp [hy])) (by simpa using hlen)]

theorem zipWith_snd {α β γ : Type} (f : β → β → γ) :
    ∀ (a : List α) (b : List β) (c : List α) (d : List β),
      a.length = b.length → c.length = d.length →
      List.zipWith (fun o s => f o.2 s.2) (a.zip b) (c.zip d) = List.zipWith f b d
  | [], [], c, d, _, _ => by simp
  | a :: as, b :: bs, [], [], _, _ => by simp
  | a :: as, b :: bs, c :: cs, d :: ds, h1, h2 => by
    simp only [List.zip_cons_cons, List.zipWith_cons_cons]
    rw [zipWith_snd f as bs cs ds (by simpa using h1) (by simpa using h2)]
  | [], b :: bs, _, _, h1, _ => by simp at h1
  | a :: as, [], _, _, h1, _ => by simp at h1
  | _ :: _, _ :: _, [], _ :: _, _, h2 => by simp at h2
  | _ :: _, _ :: _, _ :: _, [], _, h2 => by simp at h2

theorem zipWith_self {α γ : Type} (f : α → α → γ) (l : List α) :
    List.zipWith f l l = l.map (fun x => f x x) := by
  induction l with
  | nil => rfl
  | cons x xs ih => simp [ih]

/-- On two frames with the same index sequence and full-length rows,
`was_modified` reduces to the positional row comparison. -/
theorem wasModifiedRaw_same_index (df other : DF) (na : Bool)
    (hidx : df.index = other.index)
    (hl1 : df.index.length = df.rows.length)
    (hl2 : other.index.length = other.rows.length) :
    wasModifiedRaw df other na = List.zipWith rowNe other.rows df.rows := by
  unfold wasModifiedRaw
  have hs : (df.index.zip df.rows).filter (fun p => decide (p.1 ∈ other.index))
      = df.index.zip df.rows := by
    apply List.filter_eq_self.mpr
    intro p hp
    have hm := (List.of_mem_zip hp).1
    rw [hidx] at hm
    simpa using hm
  have ho : (other.index.zip other.rows).filter (fun p => decide (p.1 ∈ df.index))
      = other.index.zip other.rows := by
    apply List.filter_eq_self.mpr
    intro p hp
    have hm := (List.of_mem_zip hp).1
    rw [← hidx] at hm
    simpa using hm
  rw [hs, ho, zipWith_snd rowNe other.index other.rows df.index df.rows hl2 hl1]
  apply assignBack_all
  · intro x hx
    rw [hidx] at hx
    simpa using hx
  · have e1 : other.rows.length = df.index.length := by rw [hidx, hl2]
    have e2 : df.rows.length = df.index.length := hl1.symm
    simp [e1, e2]

/-- C6 (amended): given a table and a reference snapshot with the same key
sequence and the same column layout that differ in exactly one row (hence in
at least one cell of that row, compared cell by cell), and whose unchanged
rows are free of NaN cells, was_modified flags exactly the changed row,
was_added flags nothing, and was_deleted is empty.  The NaN-freedom
hypotheses are needed: numpy evaluates `nan != nan` as True, so an unchanged
row containing NaN is also flagged (see the counterexample). -/
theorem C6_single_cell_modified (df other : DF) (A B : List (List Val)) (r r2 : List Val)
    (_hcols : df.cols = other.cols)
    (hidx : df.index = other.index)
    (hlen : df.index.length = df.rows.length)
    (hrows : df.rows = A ++ r :: B) (hrows2 : other.rows = A ++ r2 :: B)
    (hne : ¬ r = r2) (hrlen : r.length = r2.length)
    (hA : ∀ a ∈ A, rowSelfEq a = true) (hB : ∀ b ∈ B, rowSelfEq b = true)
    (hfmt : df.dfFormat = "ours") :
    was_modified df other true false
      = .ok (List.replicate A.length false ++ true :: List.replicate B.length false) ∧
    was_added df other false = .ok (List.replicate df.index.length false) ∧
    was_deleted df other false = .ok [] := by
  have hl2 : other.index.length = other.rows.length := by
    rw [← hidx, hrows2, hlen, hrows]
    simp
  have hmod := wasModifiedRaw_same_index df other true hidx hlen hl2
  rw [hrows, hrows2, List.zipWith_append rowNe A (r2 :: B) A (r :: B) rfl] at hmod
  have hAz : List.zipWith rowNe A A = List.replicate A.length false := by
    rw [zipWith_self rowNe A]
    rw [List.map_congr_left (fun a ha => rowNe_self a (hA a ha))]
    exact List.map_const A false
  have hBz : List.zipWith rowNe B B = List.replicate B.length false := by
    rw [zipWith_self rowNe B]
    rw [List.map_congr_left (fun b hb => rowNe_self b (hB b hb))]
    exact List.map_const B false
  have hr : rowNe r2 r = true := rowNe_of_ne r2 r hrlen.symm (fun hc => hne hc.symm)
  simp only [List.zipWith_cons_cons, hAz, hBz, hr] at hmod
  refine ⟨?_, ?_, ?_⟩
  · simp [was_modified, checkOurFormat, checkDfFormat, hfmt, hmod]
  · have hadd : df.index.map (fun i => !decide (i ∈ other.index))
        = List.replicate df.index.length false := by
      have hc : ∀ i ∈ df.index, (!decide (i ∈ other.index)) = (fun _ : Val => false) i := by
        intro i hi
        rw [hidx] at hi
        simpa using hi
      rw [List.map_congr_left hc]
      exact List.map_const df.index false
    simp [was_added, checkOurFormat, checkDfFormat, hfmt, hadd]
  · have hfil : other.index.filter (fun i => !decide (i ∈ df.index)) = [] := by
      apply List.filter_eq_nil_iff.mpr
      intro i hi
      rw [← hidx] at hi
      simpa using hi
    simp [was_deleted, checkOurFormat, checkDfFormat, hfmt, hfil, uniqueFirst, sortVals,
      List.insertionSort]

/-- Witness for C6_single_cell_modified at concrete two-row tables. -/
theorem C6_single_cell_modified_witness :
    was_modified exSnapA exSnapB true false = .ok [false, true] ∧
    was_added exSnapA exSnapB false = .ok [false, false] ∧
    was_deleted exSnapA exSnapB false = .ok [] := by
  have h := C6_single_cell_modified exSnapA exSnapB [[Val.i 1]] [] [Val.i 2] [Val.i 3]
    rfl rfl rfl rfl rfl (by decide) rfl (by decide) (by decide) rfl
  simpa using h

/-- C6 counterexample to the unamended claim: the first rows of the two
snapshots are identical, but carry a NaN cell; numpy evaluates `nan != nan`
as True, so was_modified flags the unchanged first row as well as the
genuinely changed second row. -/
theorem C6_counterexample :
    exSnapNanA.rows.getD 0 [] = exSnapNanB.rows.getD 0 [] ∧
    was_modified exSnapNanA exSnapNanB true false = .ok [true, true] := by
  constructor
  · decide
  · decide


-- ==========================================================================
-- C1: the normalize-then-raw round trip.  Generic list helpers first.
-- ==========================================================================

/-- The fresh pandas RangeIndex of a table with `n` rows. -/
def rangeIdx (n : Nat) : List Val := (List.range n).map (fun k => Val.i (Int.ofNat k))

theorem zipWith_map_same {α β γ δ : Type} (f : β → γ → δ) (g : α → β) (h : α → γ) (l : List α) :
    List.zipWith f (l.map g) (l.map h) = l.map (fun x => f (g x) (h x)) := by
  induction l with
  | nil => rfl
  | cons x xs ih => simp [ih]

theorem zipWith_zipWith_same {α β γ δ ε : Type} (f : γ → δ → ε) (g : α → β → γ) (h : α → β → δ) :
    ∀ (a : List α) (b : List β),
      List.zipWith f (List.zipWith g a b) (List.zipWith h a b)
        = List.zipWith (fun x y => f (g x y) (h x y)) a b
  | [], _ => by simp
  | _ :: _, [] => by simp
  | x :: xs, y :: ys => by
    simp only [List.zipWith_cons_cons]
    rw [zipWith_zipWith_same f g h xs ys]

theorem zipWith_congr_mem {α β γ : Type} (f g : α → β → γ) :
    ∀ (a : List α) (b : List β), (∀ x ∈ a, ∀ y ∈ b, f x y = g x y) →
      List.zipWith f a b = List.zipWith g a b
  | [], _, _ => by simp
  | _ :: _, [], _ => by simp
  | x :: xs, y :: ys, hc => by
    simp only [List.zipWith_cons_cons]
    rw [hc x (by simp) y (by simp),
      zipWith_congr_mem f g xs ys (fun x2 hx y2 hy => hc x2 (by simp [hx]) y2 (by simp [hy]))]

theorem mem_of_zipWith {α β γ : Type} (f : α → β → γ) :
    ∀ (a : List α) (b : List β) (z : γ), z ∈ List.zipWith f a b →
      ∃ x y, x ∈ a ∧ y ∈ b ∧ z = f x y
  | [], _, _, hz => by simp at hz
  | _ :: _, [], _, hz => by simp at hz
  | x :: xs, y :: ys, z, hz => by
    simp only [List.zipWith_cons_cons, List.mem_cons] at hz
    rcases hz with hz | hz
    · exact ⟨x, y, by simp, by simp, hz⟩
    · obtain ⟨x2, y2, hx, hy, he⟩ := mem_of_zipWith f xs ys z hz
      exact ⟨x2, y2, by simp [hx], by simp [hy], he⟩

theorem cons_of_length_succ {α : Type} (r : List α) (n : Nat) (h : r.length = n + 1) :
    ∃ a t, r = a :: t ∧ t.length = n := by
  cases r with
  | nil => simp at h
  | cons a t => exact ⟨a, t, rfl, by simpa using h⟩

theorem set_append_length {α : Type} (l : List α) (x v : α) :
    (l ++ [x]).set l.length v = l ++ [v] := by
  induction l with
  | nil => rfl
  | cons a t ih => simp [List.set, ih]

theorem mem_uniqueFirst (x : Val) : ∀ (l : List Val), x ∈ uniqueFirst l ↔ x ∈ l
  | [] => by simp [uniqueFirst]
  | a :: as => by
    simp only [uniqueFirst, List.mem_cons, List.mem_filter]
    constructor
    · rintro (rfl | ⟨hx, _⟩)
      · exact Or.inl rfl
      · exact Or.inr ((mem_uniqueFirst x as).mp hx)
    · rintro (rfl | hx)
      · exact Or.inl rfl
      · by_cases hxa : x = a
        · exact Or.inl hxa
        · exact Or.inr ⟨(mem_uniqueFirst x as).mpr hx, by simpa using hxa⟩

-- ==========================================================================
-- The stamping pass is the identity on an unmodified table.
-- ==========================================================================

theorem wasModifiedRaw_refl (d1 d2 : DF) (na : Bool) (hidx : d1.index = d2.index)
    (hrows : d1.rows = d2.rows) (hlen : d1.index.length = d1.rows.length)
    (hself : ∀ r ∈ d1.rows, rowSelfEq r = true) :
    wasModifiedRaw d1 d2 na = List.replicate d1.index.length false := by
  have hself2 : ∀ r ∈ d2.rows, rowSelfEq r = true := by rw [← hrows]; exact hself
  rw [wasModifiedRaw_same_index d1 d2 na hidx hlen (by rw [← hidx, ← hrows, ← hlen]), hrows,
    zipWith_self rowNe d2.rows, List.map_congr_left (fun a ha => rowNe_self a (hself2 a ha))]
  have he : d2.rows.length = d1.index.length := by rw [← hrows, ← hlen]
  rw [← he]
  exact List.map_const d2.rows false

theorem zipWith_if_false {α : Type} (g h : α → α) :
    ∀ (n : Nat) (l : List α), n = l.length →
      List.zipWith (fun b r => if b = true then g r else h r) (List.replicate n false) l = l.map h
  | 0, [], _ => by simp
  | n + 1, [], hn => by simp at hn
  | 0, x :: xs, hn => by simp at hn
  | n + 1, x :: xs, hn => by
    simp only [List.replicate_succ, List.zipWith_cons_cons, Bool.false_eq_true, if_false,
      List.map_cons]
    rw [zipWith_if_false g h n xs (by simpa using hn)]

theorem updateMask_noop (df : DF) (c : String) (f : List String → List Val → Val) (dflt : Val)
    (j : Nat) (n : Nat)
    (hfind : df.cols.findIdx? (fun x => decide (x = c)) = some j)
    (hn : n = df.rows.length) :
    df.updateMask (List.replicate n false) c f dflt = df := by
  unfold DF.updateMask
  rw [hfind]
  have hz := zipWith_if_false (fun r : List Val => r.set j (f df.cols r)) id n df.rows hn
  simp only [id] at hz
  simp only [hz, List.map_id]

theorem set_usn_noop (reload d : DF) (j : Nat)
    (hidx : d.index = reload.index) (hrows : d.rows = reload.rows)
    (hlen : d.index.length = d.rows.length)
    (hself : ∀ r ∈ d.rows, rowSelfEq r = true)
    (hfind : d.cols.findIdx? (fun x =>
      decide (x = ((lookupA (columnsAnki2Ours d.table) "usn").getD ""))) = some j) :
    set_usn reload d = d := by
  unfold set_usn
  rw [wasModifiedRaw_refl d reload true hidx hrows hlen hself]
  exact updateMask_noop d _ _ _ j d.index.length hfind hlen

theorem set_mod_noop (reload : DF) (now : Int) (d : DF) (j : Nat)
    (hidx : d.index = reload.index) (hrows : d.rows = reload.rows)
    (hlen : d.index.length = d.rows.length)
    (hself : ∀ r ∈ d.rows, rowSelfEq r = true)
    (hfind : d.cols.findIdx? (fun x =>
      decide (x = ((lookupA (columnsAnki2Ours d.table) "mod").getD ""))) = some j) :
    set_mod reload now d = d := by
  unfold set_mod
  by_cases ht : d.table = "cards" ∨ d.table = "notes"
  · rw [if_pos ht, wasModifiedRaw_refl d reload true hidx hrows hlen hself]
    exact updateMask_noop d _ _ _ j d.index.length hfind hlen
  · rw [if_neg ht]


-- ==========================================================================
-- Symbolic forms of the three normalize pipelines.
-- ==========================================================================

/-- Column list of a normalized cards table (native order with dropped
columns removed, derived deck-name columns appended). -/
def cardsNormCols : List String :=
  ["nid", "cord", "cmod", "cusn", "ctype", "cqueue", "cdue", "civl", "cfactor", "creps",
   "clapses", "cleft", "codue", "cdeck", "codeck"]

/-- Row action of normalize on a native cards row. -/
def normCardsRow (db : DB) (r : List Val) : List Val :=
  [r.getD 1 Val.nan, r.getD 3 Val.nan, r.getD 4 Val.nan, r.getD 5 Val.nan,
   mapViaI ctypeMap (r.getD 6 Val.nan), mapViaI cqueueMap (r.getD 7 Val.nan),
   r.getD 8 Val.nan, r.getD 9 Val.nan, r.getD 10 Val.nan, r.getD 11 Val.nan,
   r.getD 12 Val.nan, r.getD 13 Val.nan, r.getD 14 Val.nan,
   mapViaI db.did2deck (r.getD 2 Val.nan), mapViaI db.did2deck (r.getD 15 Val.nan)]

theorem normalize_cards_eq (db : DB) (rs : List (List Val)) (ff : String)
    (hlen : ∀ r ∈ rs, r.length = 18) :
    normalize db ⟨ankiColumns "cards", rs, rangeIdx rs.length, "", "cards", "anki", ff⟩ false
      = .ok ⟨cardsNormCols, rs.map (normCardsRow db), rs.map (fun r => r.getD 0 Val.nan),
             "cid", "cards", "ours", ff⟩ := by
  simp only [normalize, checkDfFormat, normalizeBody]
  simp [DF.renameCols, DF.mapCol, DF.setColVals, DF.getColVals, setIndexE, DF.dropColsNotIn,
    DF.filterCols, valueMapsFor, columnsAnki2Ours, ourColumns, table2index, ankiColumns, getCell,
    List.map_map, zipWith_map_same, cqueueMap, ctypeMap, cardsNormCols]
  all_goals intro r hr
  all_goals have h := hlen r hr
  all_goals obtain ⟨a0, r, rfl, h⟩ := cons_of_length_succ r 17 (by omega)
  all_goals obtain ⟨a1, r, rfl, h⟩ := cons_of_length_succ r 16 (by omega)
  all_goals obtain ⟨a2, r, rfl, h⟩ := cons_of_length_succ r 15 (by omega)
  all_goals obtain ⟨a3, r, rfl, h⟩ := cons_of_length_succ r 14 (by omega)
  all_goals obtain ⟨a4, r, rfl, h⟩ := cons_of_length_succ r 13 (by omega)
  all_goals obtain ⟨a5, r, rfl, h⟩ := cons_of_length_succ r 12 (by omega)
  all_goals obtain ⟨a6, r, rfl, h⟩ := cons_of_length_succ r 11 (by omega)
  all_goals obtain ⟨a7, r, rfl, h⟩ := cons_of_length_succ r 10 (by omega)
  all_goals obtain ⟨a8, r, rfl, h⟩ := cons_of_length_succ r 9 (by omega)
  all_goals obtain ⟨a9, r, rfl, h⟩ := cons_of_length_succ r 8 (by omega)
  all_goals obtain ⟨a10, r, rfl, h⟩ := cons_of_length_succ r 7 (by omega)
  all_goals obtain ⟨a11, r, rfl, h⟩ := cons_of_length_succ r 6 (by omega)
  all_goals obtain ⟨a12, r, rfl, h⟩ := cons_of_length_succ r 5 (by omega)
  all_goals obtain ⟨a13, r, rfl, h⟩ := cons_of_length_succ r 4 (by omega)
  all_goals obtain ⟨a14, r, rfl, h⟩ := cons_of_length_succ r 3 (by omega)
  all_goals obtain ⟨a15, r, rfl, h⟩ := cons_of_length_succ r 2 (by omega)
  all_goals obtain ⟨a16, r, rfl, h⟩ := cons_of_length_succ r 1 (by omega)
  all_goals obtain ⟨a17, r, rfl, h⟩ := cons_of_length_succ r 0 (by omega)
  all_goals obtain rfl := List.length_eq_zero.mp (show List.length r = 0 by omega)
  all_goals rfl


/-- Column list of a normalized notes table. -/
def notesNormCols : List String := ["nguid", "nmod", "nusn", "ntags", "nflds", "nmodel"]

/-- Row action of normalize on a native notes row. -/
def normNotesRow (db : DB) (r : List Val) : List Val :=
  [r.getD 1 Val.nan, r.getD 3 Val.nan, r.getD 4 Val.nan,
   splitTagsCell (r.getD 5 Val.nan), splitFieldsCell (r.getD 6 Val.nan),
   mapViaI db.mid2model (r.getD 2 Val.nan)]

theorem normalize_notes_eq (db : DB) (rs : List (List Val)) (ff : String)
    (hlen : ∀ r ∈ rs, r.length = 11) :
    normalize db ⟨ankiColumns "notes", rs, rangeIdx rs.length, "", "notes", "anki", ff⟩ false
      = .ok ⟨notesNormCols, rs.map (normNotesRow db), rs.map (fun r => r.getD 0 Val.nan),
             "nid", "notes", "ours", "list"⟩ := by
  simp only [normalize, checkDfFormat, normalizeBody]
  simp [DF.renameCols, DF.mapCol, DF.setColVals, DF.getColVals, setIndexE, DF.dropColsNotIn,
    DF.filterCols, valueMapsFor, columnsAnki2Ours, ourColumns, table2index, ankiColumns, getCell,
    List.map_map, zipWith_map_same, notesNormCols]
  all_goals intro r hr
  all_goals have h := hlen r hr
  all_goals obtain ⟨a0, r, rfl, h⟩ := cons_of_length_succ r 10 (by omega)
  all_goals obtain ⟨a1, r, rfl, h⟩ := cons_of_length_succ r 9 (by omega)
  all_goals obtain ⟨a2, r, rfl, h⟩ := cons_of_length_succ r 8 (by omega)
  all_goals obtain ⟨a3, r, rfl, h⟩ := cons_of_length_succ r 7 (by omega)
  all_goals obtain ⟨a4, r, rfl, h⟩ := cons_of_length_succ r 6 (by omega)
  all_goals obtain ⟨a5, r, rfl, h⟩ := cons_of_length_succ r 5 (by omega)
  all_goals obtain ⟨a6, r, rfl, h⟩ := cons_of_length_succ r 4 (by omega)
  all_goals obtain ⟨a7, r, rfl, h⟩ := cons_of_length_succ r 3 (by omega)
  all_goals obtain ⟨a8, r, rfl, h⟩ := cons_of_length_succ r 2 (by omega)
  all_goals obtain ⟨a9, r, rfl, h⟩ := cons_of_length_succ r 1 (by omega)
  all_goals obtain ⟨a10, r, rfl, h⟩ := cons_of_length_succ r 0 (by omega)
  all_goals obtain rfl := List.length_eq_zero.mp (show List.length r = 0 by omega)
  all_goals rfl

/-- Column list of a normalized revs table. -/
def revsNormCols : List String :=
  ["cid", "rusn", "rease", "rivl", "rlastIvl", "rfactor", "rtime", "rtype"]

/-- Row action of normalize on a native revs row. -/
def normRevsRow (r : List Val) : List Val :=
  [r.getD 1 Val.nan, r.getD 2 Val.nan, r.getD 3 Val.nan, r.getD 4 Val.nan,
   r.getD 5 Val.nan, r.getD 6 Val.nan, r.getD 7 Val.nan, mapViaI rtypeMap (r.getD 8 Val.nan)]

theorem normalize_revs_eq (db : DB) (rs : List (List Val)) (ff : String)
    (hlen : ∀ r ∈ rs, r.length = 9) :
    normalize db ⟨ankiColumns "revs", rs, rangeIdx rs.length, "", "revs", "anki", ff⟩ false
      = .ok ⟨revsNormCols, rs.map normRevsRow, rs.map (fun r => r.getD 0 Val.nan),
             "rid", "revs", "ours", ff⟩ := by
  simp only [normalize, checkDfFormat, normalizeBody]
  simp [DF.renameCols, DF.mapCol, DF.setColVals, DF.getColVals, setIndexE, DF.dropColsNotIn,
    DF.filterCols, valueMapsFor, columnsAnki2Ours, ourColumns, table2index, ankiColumns, getCell,
    List.map_map, zipWith_map_same, rtypeMap, revsNormCols]
  all_goals intro r hr
  all_goals have h := hlen r hr
  all_goals obtain ⟨a0, r, rfl, h⟩ := cons_of_length_succ r 8 (by omega)
  all_goals obtain ⟨a1, r, rfl, h⟩ := cons_of_length_succ r 7 (by omega)
  all_goals obtain ⟨a2, r, rfl, h⟩ := cons_of_length_succ r 6 (by omega)
  all_goals obtain ⟨a3, r, rfl, h⟩ := cons_of_length_succ r 5 (by omega)
  all_goals obtain ⟨a4, r, rfl, h⟩ := cons_of_length_succ r 4 (by omega)
  all_goals obtain ⟨a5, r, rfl, h⟩ := cons_of_length_succ r 3 (by omega)
  all_goals obtain ⟨a6, r, rfl, h⟩ := cons_of_length_succ r 2 (by omega)
  all_goals obtain ⟨a7, r, rfl, h⟩ := cons_of_length_succ r 1 (by omega)
  all_goals obtain ⟨a8, r, rfl, h⟩ := cons_of_length_succ r 0 (by omega)
  all_goals obtain rfl := List.length_eq_zero.mp (show List.length r = 0 by omega)
  all_goals rfl

/-- Row action of raw on a normalized revs row with index value `i`. -/
def rawRevsRow (i : Val) (r : List Val) : List Val :=
  [i, r.getD 0 Val.nan, r.getD 1 Val.nan, r.getD 2 Val.nan, r.getD 3 Val.nan,
   r.getD 4 Val.nan, r.getD 5 Val.nan, r.getD 6 Val.nan,
   mapViaS (invert_dict rtypeMap) (r.getD 7 Val.nan)]

set_option maxHeartbeats 1600000 in
theorem raw_revs_eq (db : DB) (rs2 : List (List Val)) (ids : List Val) (now : Int) (ff : String)
    (hlen : ids.length = rs2.length) (hne : ¬ rs2 = []) (hrlen : ∀ r ∈ rs2, r.length = 8)
    (hself : ∀ r ∈ rs2, rowSelfEq r = true) :
    raw db ⟨revsNormCols, rs2, ids, "rid", "revs", "ours", ff⟩ now
        ⟨revsNormCols, rs2, ids, "rid", "revs", "ours", ff⟩ false
      = .ok ⟨ankiColumns "revs", List.zipWith rawRevsRow ids rs2, rangeIdx rs2.length,
             "", "revs", "anki", ff⟩ := by
  have h0 : set_mod ⟨revsNormCols, rs2, ids, "rid", "revs", "ours", ff⟩ now
      ⟨revsNormCols, rs2, ids, "rid", "revs", "in_progress", ff⟩
      = ⟨revsNormCols, rs2, ids, "rid", "revs", "in_progress", ff⟩ := by
    simp [set_mod]
  have husn := set_usn_noop ⟨revsNormCols, rs2, ids, "rid", "revs", "ours", ff⟩
    ⟨revsNormCols, rs2, ids, "rid", "revs", "in_progress", ff⟩ 1 rfl rfl hlen hself (by rfl)
  simp only [raw, checkDfFormat, rawBody, String.reduceEq, reduceIte, not_true, true_or, or_true,
    or_false, false_or, not_false_iff, if_true, if_false, ite_true, ite_false]
  rw [h0, husn]
  rw [show set_guid (⟨revsNormCols, rs2, ids, "rid", "revs", "in_progress", ff⟩ : DF)
      = .ok ⟨revsNormCols, rs2, ids, "rid", "revs", "in_progress", ff⟩ from by
    simp [set_guid]]
  rw [show ∀ (d : DF), (match (Except.ok d : Except String DF) with
      | .error e => (.error e : Except String DF)
      | .ok d1 => rawMid db d1.resetIndex) = rawMid db d.resetIndex from fun _ => rfl]
  simp [rawMid, rawTail, rawFinish, DF.resetIndex, DF.setColVals, DF.getColVals, DF.mapCol,
    DF.setColConst, DF.renameCols, selectColsE, getCell, valueMapsFor, columnsAnki2Ours,
    invert_dict, rtypeMap, revsNormCols, ankiColumns, rangeIdx, List.map_map, zipWith_map_same,
    zipWith_zipWith_same, List.map_zipWith, hlen, hne]
  all_goals apply zipWith_congr_mem
  all_goals intro i hi r hr
  all_goals have h := hrlen r hr
  all_goals obtain ⟨a0, r, rfl, h⟩ := cons_of_length_succ r 7 (by omega)
  all_goals obtain ⟨a1, r, rfl, h⟩ := cons_of_length_succ r 6 (by omega)
  all_goals obtain ⟨a2, r, rfl, h⟩ := cons_of_length_succ r 5 (by omega)
  all_goals obtain ⟨a3, r, rfl, h⟩ := cons_of_length_succ r 4 (by omega)
  all_goals obtain ⟨a4, r, rfl, h⟩ := cons_of_length_succ r 3 (by omega)
  all_goals obtain ⟨a5, r, rfl, h⟩ := cons_of_length_succ r 2 (by omega)
  all_goals obtain ⟨a6, r, rfl, h⟩ := cons_of_length_succ r 1 (by omega)
  all_goals obtain ⟨a7, r, rfl, h⟩ := cons_of_length_succ r 0 (by omega)
  all_goals obtain rfl := List.length_eq_zero.mp (show List.length r = 0 by omega)
  all_goals rfl


/-- Row action of raw on a normalized cards row with index value `i`. -/
def rawCardsRow (db : DB) (i : Val) (r : List Val) : List Val :=
  [i, r.getD 0 Val.nan, mapViaS (get_deck2did db) (r.getD 13 Val.nan), r.getD 1 Val.nan,
   r.getD 2 Val.nan, r.getD 3 Val.nan, mapViaS (invert_dict ctypeMap) (r.getD 4 Val.nan),
   mapViaS (invert_dict cqueueMap) (r.getD 5 Val.nan), r.getD 6 Val.nan, r.getD 7 Val.nan,
   r.getD 8 Val.nan, r.getD 9 Val.nan, r.getD 10 Val.nan, r.getD 11 Val.nan, r.getD 12 Val.nan,
   mapViaS (get_deck2did db) (r.getD 14 Val.nan), Val.i 0, Val.s ""]

/-- Symbolic form of the raw pipeline on a reset cards table, up to the final
column rearrangement. -/
def cardsD9 (db : DB) (rs2 : List (List Val)) (ids : List Val) (ff : String) : DF :=
  let dA : DF := ⟨"cid" :: cardsNormCols, List.zipWith (fun i r => i :: r) ids rs2,
    rangeIdx rs2.length, "", "cards", "in_progress", ff⟩
  let dB := dA.setColVals "did" ((dA.getColVals "cdeck").map (mapViaS (get_deck2did db)))
  let dC := dB.setColVals "odid" ((dB.getColVals "codeck").map (mapViaS (get_deck2did db)))
  let dD := (dC.mapCol "cqueue" (mapViaS (invert_dict cqueueMap))).mapCol "ctype"
    (mapViaS (invert_dict ctypeMap))
  let dE := (dD.renameCols (invert_dict (columnsAnki2Ours "cards"))).renameCols [("index", "id")]
  (dE.setColConst "data" (Val.s "")).setColConst "flags" (Val.i 0)

set_option maxHeartbeats 12800000 in
theorem raw_cards_eq (db : DB) (rs2 : List (List Val)) (ids : List Val) (now : Int) (ff : String)
    (hlen : ids.length = rs2.length) (hne : ¬ rs2 = []) (hrlen : ∀ r ∈ rs2, r.length = 15)
    (hself : ∀ r ∈ rs2, rowSelfEq r = true) :
    raw db ⟨cardsNormCols, rs2, ids, "cid", "cards", "ours", ff⟩ now
        ⟨cardsNormCols, rs2, ids, "cid", "cards", "ours", ff⟩ false
      = .ok ⟨ankiColumns "cards", List.zipWith (rawCardsRow db) ids rs2, rangeIdx rs2.length,
             "", "cards", "anki", ff⟩ := by
  have hmod := set_mod_noop ⟨cardsNormCols, rs2, ids, "cid", "cards", "ours", ff⟩ now
    ⟨cardsNormCols, rs2, ids, "cid", "cards", "in_progress", ff⟩ 2 rfl rfl hlen hself (by rfl)
  have husn := set_usn_noop ⟨cardsNormCols, rs2, ids, "cid", "cards", "ours", ff⟩
    ⟨cardsNormCols, rs2, ids, "cid", "cards", "in_progress", ff⟩ 3 rfl rfl hlen hself (by rfl)
  simp only [raw, checkDfFormat, rawBody, String.reduceEq, reduceIte, not_true, true_or, or_true,
    or_false, false_or, not_false_iff, if_true, if_false, ite_true, ite_false]
  rw [hmod, husn]
  rw [show set_guid (⟨cardsNormCols, rs2, ids, "cid", "cards", "in_progress", ff⟩ : DF)
      = .ok ⟨cardsNormCols, rs2, ids, "cid", "cards", "in_progress", ff⟩ from by
    simp [set_guid]]
  rw [show ∀ (d : DF), (match (Except.ok d : Except String DF) with
      | .error e => (.error e : Except String DF)
      | .ok d1 => rawMid db d1.resetIndex) = rawMid db d.resetIndex from fun _ => rfl]
  rw [show (⟨cardsNormCols, rs2, ids, "cid", "cards", "in_progress", ff⟩ : DF).resetIndex
      = ⟨"cid" :: cardsNormCols, List.zipWith (fun i r => i :: r) ids rs2, rangeIdx rs2.length,
         "", "cards", "in_progress", ff⟩ from rfl]
  rw [show rawMid db ⟨"cid" :: cardsNormCols, List.zipWith (fun i r => i :: r) ids rs2,
         rangeIdx rs2.length, "", "cards", "in_progress", ff⟩
      = rawFinish (cardsD9 db rs2 ids ff) from rfl]
  have hlen9 : (cardsD9 db rs2 ids ff).rows.length = rs2.length := by
    simp [cardsD9, DF.setColVals, DF.getColVals, DF.mapCol, DF.setColConst, DF.renameCols,
      getCell, cardsNormCols, columnsAnki2Ours, invert_dict, cqueueMap, ctypeMap, rangeIdx,
      List.length_zipWith, List.length_map, hlen]
  have hc : ¬ ((cardsD9 db rs2 ids ff).rows.length = 0) := by
    rw [hlen9]
    intro h0
    exact hne (List.length_eq_zero.mp h0)
  have hfin : rawFinish (cardsD9 db rs2 ids ff) = .ok ⟨ankiColumns "cards",
      (cardsD9 db rs2 ids ff).rows.map
        (fun r => (ankiColumns "cards").map (getCell (cardsD9 db rs2 ids ff).cols r)),
      rangeIdx rs2.length, "", "cards", "anki", ff⟩ := by
    simp only [rawFinish, hc, if_false, ite_false]
    rfl
  rw [hfin]
  simp only [ite_self, Except.ok.injEq, DF.mk.injEq, and_true, true_and]
  simp [cardsD9, DF.setColVals, DF.getColVals, DF.mapCol, DF.setColConst, DF.renameCols, getCell,
    cardsNormCols, ankiColumns, columnsAnki2Ours, invert_dict, cqueueMap, ctypeMap,
    List.map_map, List.map_zipWith, zipWith_map_same, zipWith_zipWith_same]
  apply zipWith_congr_mem
  intro i hi r hr
  have h := hrlen r hr
  obtain ⟨a0, r, rfl, h⟩ := cons_of_length_succ r 14 (by omega)
  obtain ⟨a1, r, rfl, h⟩ := cons_of_length_succ r 13 (by omega)
  obtain ⟨a2, r, rfl, h⟩ := cons_of_length_succ r 12 (by omega)
  obtain ⟨a3, r, rfl, h⟩ := cons_of_length_succ r 11 (by omega)
  obtain ⟨a4, r, rfl, h⟩ := cons_of_length_succ r 10 (by omega)
  obtain ⟨a5, r, rfl, h⟩ := cons_of_length_succ r 9 (by omega)
  obtain ⟨a6, r, rfl, h⟩ := cons_of_length_succ r 8 (by omega)
  obtain ⟨a7, r, rfl, h⟩ := cons_of_length_succ r 7 (by omega)
  obtain ⟨a8, r, rfl, h⟩ := cons_of_length_succ r 6 (by omega)
  obtain ⟨a9, r, rfl, h⟩ := cons_of_length_succ r 5 (by omega)
  obtain ⟨a10, r, rfl, h⟩ := cons_of_length_succ r 4 (by omega)
  obtain ⟨a11, r, rfl, h⟩ := cons_of_length_succ r 3 (by omega)
  obtain ⟨a12, r, rfl, h⟩ := cons_of_length_succ r 2 (by omega)
  obtain ⟨a13, r, rfl, h⟩ := cons_of_length_succ r 1 (by omega)
  obtain ⟨a14, r, rfl, h⟩ := cons_of_length_succ r 0 (by omega)
  obtain rfl := List.length_eq_zero.mp (show List.length r = 0 by omega)
  rfl

-- ==========================================================================
-- The sort-field restoration loop of raw on a notes table, solved in closed
-- form.
-- ==========================================================================

theorem zipWith_map_left {α β γ : Type} (f : β → α → γ) (g : α → β) :
    ∀ (l : List α), List.zipWith f (l.map g) l = l.map (fun x => f (g x) x)
  | [] => rfl
  | x :: xs => by simp [zipWith_map_left f g xs]

theorem zipWith_map_right {α β γ : Type} (f : α → β → γ) (g : α → β) :
    ∀ (l : List α), List.zipWith f l (l.map g) = l.map (fun x => f x (g x))
  | [] => rfl
  | x :: xs => by simp [zipWith_map_right f g xs]

theorem set_append_at {α : Type} (l : List α) (x v : α) (n : Nat) (h : n = l.length) :
    (l ++ [x]).set n v = l ++ [v] := by
  subst h
  rw [List.set_append_right l.length v (Nat.le_refl _)]
  simp

theorem foldl_max_init : ∀ (l : List Nat) (a : Nat), a ≤ l.foldl max a
  | [], _ => Nat.le_refl _
  | x :: xs, a => Nat.le_trans (Nat.le_max_left a x) (foldl_max_init xs (max a x))

theorem le_foldl_max : ∀ (l : List Nat) (a x : Nat), x ∈ l → x ≤ l.foldl max a
  | [], _, _, h => absurd h (List.not_mem_nil _)
  | y :: ys, a, x, h => by
    rcases List.mem_cons.mp h with rfl | h2
    · exact Nat.le_trans (Nat.le_max_right a x) (foldl_max_init ys (max a x))
    · exact le_foldl_max ys (max a y) x h2

theorem zip_map_same {α β γ : Type} (f : α → β) (g : α → γ) :
    ∀ (l : List α), (l.map f).zip (l.map g) = l.map (fun x => (f x, g x))
  | [] => rfl
  | x :: xs => by simp [zip_map_same f g xs]

/-- A selected row wider than `w` makes the model field frame wider than
`w`. -/
theorem modelFieldWidth_gt (midVals flds : List Val) (mid : Val) (w : Nat)
    (hw : ∃ p ∈ midVals.zip flds, p.1 = mid ∧ w < cellWidth p.2) :
    w < modelFieldWidth midVals flds mid := by
  obtain ⟨p, hp, hpm, hpw⟩ := hw
  have hmem : cellWidth p.2 ∈ (((midVals.zip flds).filter
      (fun q => decide (q.1 = mid))).map (fun q => cellWidth q.2)) :=
    List.mem_map_of_mem _ (List.mem_filter.mpr ⟨hp, by simp [hpm]⟩)
  exact Nat.lt_of_lt_of_le hpw (le_foldl_max _ 0 _ hmem)

/-- Columns of a notes table after the index reset and the `mid` re-derivation
of `raw` (lines 1118-1130). -/
def notesMidCols : List String :=
  ["nid", "nguid", "nmod", "nusn", "ntags", "nflds", "nmodel", "mid"]

/-- `notesMidCols` with the restored sort-field column appended. -/
def notesSfldCols : List String :=
  ["nid", "nguid", "nmod", "nusn", "ntags", "nflds", "nmodel", "mid", "nsfld"]

/-- `notesSfldCols` with the recomputed checksum column appended. -/
def notesCsumCols : List String :=
  ["nid", "nguid", "nmod", "nusn", "ntags", "nflds", "nmodel", "mid", "nsfld", "ncsum"]

/-- The sort-field value the restoration loop of `raw` (lines 1146-1153)
leaves on a reset-index notes row: position 7 of the row holds the model id,
position 5 the field list. -/
def sfldValOf8 (db : DB) (r : List Val) : Val :=
  match r.getD 7 Val.nan with
  | .i m =>
    match lookupA db.mid2sortfield m with
    | some sf => sfldAssign sf (r.getD 5 Val.nan)
    | none => Val.nan
  | _ => Val.nan

/-- The first restoration iteration, on the table without a `nsfld` column
yet: the column is created, with NaN outside the selected rows. -/
theorem sfld_first (db : DB) (L : List (List Val)) (idx : List Val) (nm t fm ff : String)
    (m0 : Int) (sf0 : Nat) (hsf0 : lookupA db.mid2sortfield m0 = some sf0)
    (hw : ∃ r ∈ L, r.getD 7 Val.nan = Val.i m0 ∧ sf0 < cellWidth (r.getD 5 Val.nan)) :
    sfldStep db (⟨notesMidCols, L, idx, nm, t, fm, ff⟩ : DF) (Val.i m0)
      = .ok ⟨notesSfldCols,
             L.map (fun r => r ++ [if r.getD 7 Val.nan = Val.i m0
               then sfldAssign sf0 (r.getD 5 Val.nan) else Val.nan]),
             idx, nm, t, fm, ff⟩ := by
  simp only [sfldStep, hsf0]
  have hg1 : DF.getColVals (⟨notesMidCols, L, idx, nm, t, fm, ff⟩ : DF) "mid"
      = L.map (fun r => r.getD 7 Val.nan) := by
    simp [DF.getColVals, getCell, notesMidCols]
  have hg2 : DF.getColVals (⟨notesMidCols, L, idx, nm, t, fm, ff⟩ : DF) "nflds"
      = L.map (fun r => r.getD 5 Val.nan) := by
    simp [DF.getColVals, getCell, notesMidCols]
  rw [hg1, hg2]
  rw [if_neg (Nat.not_le.mpr (modelFieldWidth_gt _ _ _ _ (by
    obtain ⟨r0, hr0, hm0r, hw0⟩ := hw
    refine ⟨(r0.getD 7 Val.nan, r0.getD 5 Val.nan), ?_, hm0r, hw0⟩
    rw [zip_map_same]
    exact List.mem_map_of_mem _ hr0)))]
  simp [DF.updateMask, DF.getColVals, getCell, notesMidCols, notesSfldCols,
    List.map_map, zipWith_map_left]

/-- Every later restoration iteration, on the table with the `nsfld` column
already appended to each row: the selected rows have it overwritten. -/
theorem sfld_fold (db : DB) (R : List (List Val)) (idx : List Val) (nm t fm ff : String) :
    ∀ (us : List Val) (g : List Val → Val),
      (∀ u ∈ us, ∃ m sf, u = Val.i m ∧ lookupA db.mid2sortfield m = some sf ∧
        ∃ r ∈ R, r.getD 7 Val.nan = u ∧ sf < cellWidth (r.getD 5 Val.nan)) →
      (∀ r ∈ R, r.length = 8) →
      List.foldlM (sfldStep db)
          (⟨notesSfldCols, R.map (fun r => r ++ [g r]), idx, nm, t, fm, ff⟩ : DF) us
        = .ok ⟨notesSfldCols,
               R.map (fun r => r ++ [if r.getD 7 Val.nan ∈ us then sfldValOf8 db r else g r]),
               idx, nm, t, fm, ff⟩
  | [], g, _, _ => by
    rw [List.foldlM_nil]
    refine congrArg Except.ok (congrArg (fun rws => DF.mk notesSfldCols rws idx nm t fm ff) ?_)
    simp
  | u :: us, g, hres, hrlen => by
    obtain ⟨m, sf, rfl, hsf, r0, hr0, hm0r, hw0⟩ := hres u (List.mem_cons_self u us)
    rw [List.foldlM_cons]
    have hstep : sfldStep db
        (⟨notesSfldCols, R.map (fun r => r ++ [g r]), idx, nm, t, fm, ff⟩ : DF) (Val.i m)
        = .ok ⟨notesSfldCols,
               R.map (fun r => r ++ [if r.getD 7 Val.nan = Val.i m
                  then sfldAssign sf (r.getD 5 Val.nan) else g r]),
               idx, nm, t, fm, ff⟩ := by
      simp only [sfldStep, hsf]
      have hg1 : DF.getColVals
          (⟨notesSfldCols, R.map (fun r => r ++ [g r]), idx, nm, t, fm, ff⟩ : DF) "mid"
          = R.map (fun r => (r ++ [g r]).getD 7 Val.nan) := by
        simp [DF.getColVals, getCell, notesSfldCols]
      have hg2 : DF.getColVals
          (⟨notesSfldCols, R.map (fun r => r ++ [g r]), idx, nm, t, fm, ff⟩ : DF) "nflds"
          = R.map (fun r => (r ++ [g r]).getD 5 Val.nan) := by
        simp [DF.getColVals, getCell, notesSfldCols]
      rw [hg1, hg2]
      have h8w := hrlen r0 hr0
      rw [if_neg (Nat.not_le.mpr (modelFieldWidth_gt _ _ _ _ (by
        refine ⟨((r0 ++ [g r0]).getD 7 Val.nan, (r0 ++ [g r0]).getD 5 Val.nan), ?_, ?_, ?_⟩
        · rw [zip_map_same]
          exact List.mem_map_of_mem _ hr0
        · rw [List.getD_append r0 [g r0] Val.nan 7 (by omega)]
          exact hm0r
        · rw [List.getD_append r0 [g r0] Val.nan 5 (by omega)]
          exact hw0)))]
      simp [DF.updateMask, DF.getColVals, getCell, notesSfldCols, List.map_map, zipWith_map_left]
      intro r hr
      have h8 := hrlen r hr
      rw [List.getElem?_append_left (show (7 : Nat) < r.length from by omega),
          List.getElem?_append_left (show (5 : Nat) < r.length from by omega),
          set_append_at r (g r) _ 8 h8.symm]
      by_cases hm : r[7]?.getD Val.nan = Val.i m
      · simp [hm]
      · simp [hm]
    rw [hstep]
    rw [show ∀ (d : DF) (k : DF → Except String DF), (Except.ok d >>= k) = k d
        from fun _ _ => rfl]
    rw [sfld_fold db R idx nm t fm ff us
        (fun r => if r.getD 7 Val.nan = Val.i m then sfldAssign sf (r.getD 5 Val.nan) else g r)
        (fun u hu => hres u (List.mem_cons_of_mem _ hu)) hrlen]
    refine congrArg Except.ok (congrArg (fun rws => DF.mk notesSfldCols rws idx nm t fm ff) ?_)
    apply List.map_congr_left
    intro r hr
    simp only [List.getD_eq_getElem?_getD, List.mem_cons]
    by_cases h1 : r[7]?.getD Val.nan ∈ us
    · simp [h1]
    · by_cases h2 : r[7]?.getD Val.nan = Val.i m
      · simp [h1, h2, sfldValOf8, hsf]
      · simp [h1, h2]

/-- The restoration loop (lines 1146-1153) in closed form: on a non-empty
reset-index notes table whose model column resolves for every row, it appends
a `nsfld` column holding the sort field of each row. -/
theorem restoreSortField_notes (db : DB) (R : List (List Val)) (idx : List Val)
    (nm t fm ff : String) (hne : ¬ R = []) (hrlen : ∀ r ∈ R, r.length = 8)
    (hok : ∀ r ∈ R, ∃ m sf, r.getD 7 Val.nan = Val.i m ∧ lookupA db.mid2sortfield m = some sf ∧
      sf < cellWidth (r.getD 5 Val.nan)) :
    restoreSortField db ⟨notesMidCols, R, idx, nm, t, fm, ff⟩
      = .ok ⟨notesSfldCols, R.map (fun r => r ++ [sfldValOf8 db r]), idx, nm, t, fm, ff⟩ := by
  cases R with
  | nil => exact absurd rfl hne
  | cons r0 R2 =>
    obtain ⟨m0, sf0, hm0, hsf0, hw0⟩ := hok r0 (List.mem_cons_self r0 R2)
    have hmids : DF.getColVals ⟨notesMidCols, r0 :: R2, idx, nm, t, fm, ff⟩ "mid"
        = (r0 :: R2).map (fun r => r.getD 7 Val.nan) := by
      simp [DF.getColVals, getCell, notesMidCols]
    simp only [restoreSortField, hmids, List.map_cons, hm0]
    rw [show uniqueFirst (Val.i m0 :: R2.map (fun r => r.getD 7 Val.nan))
        = Val.i m0 :: (uniqueFirst (R2.map (fun r => r.getD 7 Val.nan))).filter
            (fun y => decide (¬ y = Val.i m0)) from rfl]
    rw [List.foldlM_cons]
    rw [sfld_first db (r0 :: R2) idx nm t fm ff m0 sf0 hsf0
        ⟨r0, List.mem_cons_self r0 R2, hm0, hw0⟩]
    rw [show ∀ (d : DF) (k : DF → Except String DF), (Except.ok d >>= k) = k d
        from fun _ _ => rfl]
    rw [sfld_fold db (r0 :: R2) idx nm t fm ff
        ((uniqueFirst (R2.map (fun r => r.getD 7 Val.nan))).filter
          (fun y => decide (¬ y = Val.i m0)))
        (fun r => if r.getD 7 Val.nan = Val.i m0 then sfldAssign sf0 (r.getD 5 Val.nan)
                  else Val.nan)
        ?hres hrlen]
    case hres =>
      intro u hu
      obtain ⟨r, hrm, hre⟩ := List.mem_map.mp
        ((mem_uniqueFirst u _).mp (List.mem_filter.mp hu).1)
      obtain ⟨m, sf, hm, hsf, hwr⟩ := hok r (List.mem_cons_of_mem r0 hrm)
      exact ⟨m, sf, hre.symm.trans hm, hsf, r, List.mem_cons_of_mem r0 hrm, hre, hwr⟩
    refine congrArg Except.ok (congrArg (fun rws => DF.mk notesSfldCols rws idx nm t fm ff) ?_)
    apply List.map_congr_left
    intro r hr
    have hm0e : r0[7]?.getD Val.nan = Val.i m0 := by
      simpa only [List.getD_eq_getElem?_getD] using hm0
    simp only [List.getD_eq_getElem?_getD]
    by_cases h1 : r[7]?.getD Val.nan ∈ (uniqueFirst (R2.map (fun r => r[7]?.getD Val.nan))).filter
        (fun y => decide (¬ y = Val.i m0))
    · exact congrArg (fun v => r ++ [v]) (if_pos h1)
    · have hmem : r[7]?.getD Val.nan ∈ uniqueFirst ((r0 :: R2).map (fun r => r[7]?.getD Val.nan)) :=
        (mem_uniqueFirst _ _).mpr (List.mem_map_of_mem _ hr)
      rw [List.map_cons, hm0e] at hmem
      rw [show uniqueFirst (Val.i m0 :: R2.map (fun r => r[7]?.getD Val.nan))
          = Val.i m0 :: (uniqueFirst (R2.map (fun r => r[7]?.getD Val.nan))).filter
              (fun y => decide (¬ y = Val.i m0)) from rfl] at hmem
      rcases List.mem_cons.mp hmem with h2 | h2
      · simp [h1, h2, sfldValOf8, hsf0]
      · exact absurd h2 h1

/-- The notes-only block of `raw` (lines 1135-1159) in closed form on a table
already in `list` sub-format: restore the sort field, append the checksum,
join the field lists. -/
theorem notesFieldBlock_eq (db : DB) (R : List (List Val)) (idx : List Val) (nm t fm : String)
    (hne : ¬ R = []) (hrlen : ∀ r ∈ R, r.length = 8)
    (hok : ∀ r ∈ R, ∃ m sf, r.getD 7 Val.nan = Val.i m ∧ lookupA db.mid2sortfield m = some sf ∧
      sf < cellWidth (r.getD 5 Val.nan)) :
    notesFieldBlock db ⟨notesMidCols, R, idx, nm, t, fm, "list"⟩
      = .ok ⟨notesCsumCols,
             R.map (fun r => (r.set 5 (joinFieldsCell (r.getD 5 Val.nan)))
               ++ [sfldValOf8 db r, csumCell (r.getD 5 Val.nan)]),
             idx, nm, t, fm, "list"⟩ := by
  have hrest := restoreSortField_notes db R idx nm t fm "list" hne hrlen hok
  simp only [notesFieldBlock, hrest, String.reduceEq, not_true, reduceIte, ite_true, ite_false,
    if_true, if_false, not_false_iff]
  refine congrArg Except.ok ?_
  simp [DF.setColVals, DF.mapCol, DF.getColVals, getCell, notesSfldCols, notesCsumCols,
    List.map_map, zipWith_map_right]
  intro r hr
  have h8 := hrlen r hr
  rw [List.getElem?_append_left (show (5 : Nat) < r.length from by omega)]
  rw [List.getElem?_append_left (show (5 : Nat) < r.length from by omega)]
  rw [List.set_append_left 5 _ (show (5 : Nat) < r.length from by omega)]

theorem getD_append_length {α : Type} (x d : α) :
    ∀ (l : List α) (n : Nat), n = l.length → (l ++ [x]).getD n d = x
  | [], _, h => by subst h; rfl
  | a :: t, _, h => by
    subst h
    simpa using getD_append_length x d t t.length rfl

/-- The sort-field cell `raw` re-derives for a normalized notes row (position
5 holds the model name, position 4 the field list). -/
def noteSfld (db : DB) (r : List Val) : Val :=
  sfldValOf8 db [Val.nan, r.getD 0 Val.nan, r.getD 1 Val.nan, r.getD 2 Val.nan,
    r.getD 3 Val.nan, r.getD 4 Val.nan, r.getD 5 Val.nan,
    mapViaS (get_model2mid db) (r.getD 5 Val.nan)]

/-- Row action of raw on a normalized notes row with index value `i`, in the
native column order. -/
def rawNotesRow (db : DB) (i : Val) (r : List Val) : List Val :=
  [i, r.getD 0 Val.nan, mapViaS (get_model2mid db) (r.getD 5 Val.nan), r.getD 1 Val.nan,
   r.getD 2 Val.nan, joinTagsCell (r.getD 3 Val.nan), joinFieldsCell (r.getD 4 Val.nan),
   noteSfld db r, csumCell (r.getD 4 Val.nan), Val.i 0, Val.s ""]

/-- Symbolic form of the tail of the raw pipeline on a notes table that has
passed the fields block, up to the final column rearrangement. -/
def notesD9 (R : List (List Val)) (idx : List Val) : DF :=
  let d5 : DF := ⟨notesCsumCols, R, idx, "", "notes", "in_progress", "list"⟩
  let d6 := d5.mapCol "ntags" joinTagsCell
  let d8 := (d6.renameCols (invert_dict (columnsAnki2Ours "notes"))).renameCols [("index", "id")]
  (d8.setColConst "data" (Val.s "")).setColConst "flags" (Val.i 0)

theorem rawTail_notes (R : List (List Val)) (idx : List Val) :
    rawTail ⟨notesCsumCols, R, idx, "", "notes", "in_progress", "list"⟩
      = rawFinish (notesD9 R idx) := rfl

theorem rawFinish_notes (R : List (List Val)) (idx : List Val)
    (h : ¬ (notesD9 R idx).rows.length = 0) :
    rawFinish (notesD9 R idx)
      = .ok ⟨ankiColumns "notes",
             (notesD9 R idx).rows.map
               (fun r => (ankiColumns "notes").map (getCell (notesD9 R idx).cols r)),
             idx, "", "notes", "anki", "list"⟩ := by
  simp only [rawFinish, h, if_false, ite_false]
  rfl

set_option maxHeartbeats 12800000 in
/-- The whole raw pipeline on a normalized non-empty notes table whose model
names resolve to model ids with a known sort field. -/
theorem raw_notes_eq (db : DB) (rs2 : List (List Val)) (ids : List Val) (now : Int)
    (hlen : ids.length = rs2.length) (hne : ¬ rs2 = []) (hrlen : ∀ r ∈ rs2, r.length = 6)
    (hself : ∀ r ∈ rs2, rowSelfEq r = true)
    (hguid : ∀ r ∈ rs2, valFalsy (r.getD 0 Val.nan) = false)
    (hok : ∀ r ∈ rs2, ∃ m sf,
      mapViaS (get_model2mid db) (r.getD 5 Val.nan) = Val.i m ∧
      lookupA db.mid2sortfield m = some sf ∧
      sf < cellWidth (r.getD 4 Val.nan)) :
    raw db ⟨notesNormCols, rs2, ids, "nid", "notes", "ours", "list"⟩ now
        ⟨notesNormCols, rs2, ids, "nid", "notes", "ours", "list"⟩ false
      = .ok ⟨ankiColumns "notes", List.zipWith (rawNotesRow db) ids rs2, rangeIdx rs2.length,
             "", "notes", "anki", "list"⟩ := by
  have hmod := set_mod_noop ⟨notesNormCols, rs2, ids, "nid", "notes", "ours", "list"⟩ now
    ⟨notesNormCols, rs2, ids, "nid", "notes", "in_progress", "list"⟩ 1 rfl rfl hlen hself (by rfl)
  have husn := set_usn_noop ⟨notesNormCols, rs2, ids, "nid", "notes", "ours", "list"⟩
    ⟨notesNormCols, rs2, ids, "nid", "notes", "in_progress", "list"⟩ 2 rfl rfl hlen hself (by rfl)
  simp only [raw, checkDfFormat, rawBody, String.reduceEq, reduceIte, not_true, true_or, or_true,
    or_false, false_or, not_false_iff, if_true, if_false, ite_true, ite_false]
  rw [hmod, husn]
  rw [show set_guid (⟨notesNormCols, rs2, ids, "nid", "notes", "in_progress", "list"⟩ : DF)
      = .ok ⟨notesNormCols, rs2, ids, "nid", "notes", "in_progress", "list"⟩ from by
    simp only [set_guid]
    rw [if_neg]
    rintro ⟨-, hany⟩
    rw [List.any_eq_true] at hany
    obtain ⟨v, hv, hfv⟩ := hany
    have hv2 : v ∈ rs2.map (fun r => r.getD 0 Val.nan) := by
      simpa [DF.getColVals, getCell, notesNormCols] using hv
    obtain ⟨r, hr, rfl⟩ := List.mem_map.mp hv2
    rw [hguid r hr] at hfv
    exact absurd hfv (by simp)]
  rw [show ∀ (d : DF), (match (Except.ok d : Except String DF) with
      | .error e => (.error e : Except String DF)
      | .ok d1 => rawMid db d1.resetIndex) = rawMid db d.resetIndex from fun _ => rfl]
  rw [show (⟨notesNormCols, rs2, ids, "nid", "notes", "in_progress", "list"⟩ : DF).resetIndex
      = ⟨"nid" :: notesNormCols, List.zipWith (fun i r => i :: r) ids rs2, rangeIdx rs2.length,
         "", "notes", "in_progress", "list"⟩ from rfl]
  rw [show rawMid db ⟨"nid" :: notesNormCols, List.zipWith (fun i r => i :: r) ids rs2,
        rangeIdx rs2.length, "", "notes", "in_progress", "list"⟩
      = (match notesFieldBlock db ⟨notesMidCols,
            List.zipWith (fun r v => r ++ [v]) (List.zipWith (fun i r => i :: r) ids rs2)
              (((List.zipWith (fun i r => i :: r) ids rs2).map
                  (fun r => getCell ("nid" :: notesNormCols) r "nmodel")).map
                (mapViaS (get_model2mid db))),
            rangeIdx rs2.length, "", "notes", "in_progress", "list"⟩ with
         | .error e => (.error e : Except String DF)
         | .ok d5 => rawTail d5) from rfl]
  have hR4len : ∀ r4 ∈ List.zipWith (fun r v => r ++ [v])
      (List.zipWith (fun i r => i :: r) ids rs2)
      (((List.zipWith (fun i r => i :: r) ids rs2).map
          (fun r => getCell ("nid" :: notesNormCols) r "nmodel")).map
        (mapViaS (get_model2mid db))), r4.length = 8 := by
    intro r4 hr4
    obtain ⟨rr, v, hrr, _, rfl⟩ := mem_of_zipWith _ _ _ _ hr4
    obtain ⟨i, r6, _, hr6, rfl⟩ := mem_of_zipWith _ _ _ _ hrr
    simp [hrlen r6 hr6]
  have hR4eq : List.zipWith (fun r v => r ++ [v])
      (List.zipWith (fun i r => i :: r) ids rs2)
      (((List.zipWith (fun i r => i :: r) ids rs2).map
          (fun r => getCell ("nid" :: notesNormCols) r "nmodel")).map
        (mapViaS (get_model2mid db)))
      = (List.zipWith (fun i r => i :: r) ids rs2).map
          (fun r => r ++ [mapViaS (get_model2mid db)
            (getCell ("nid" :: notesNormCols) r "nmodel")]) := by
    rw [List.map_map]
    exact zipWith_map_right _ _ _
  have hR4ok : ∀ r4 ∈ List.zipWith (fun r v => r ++ [v])
      (List.zipWith (fun i r => i :: r) ids rs2)
      (((List.zipWith (fun i r => i :: r) ids rs2).map
          (fun r => getCell ("nid" :: notesNormCols) r "nmodel")).map
        (mapViaS (get_model2mid db))),
      ∃ m sf, r4.getD 7 Val.nan = Val.i m ∧ lookupA db.mid2sortfield m = some sf ∧
        sf < cellWidth (r4.getD 5 Val.nan) := by
    intro r4 hr4
    rw [hR4eq] at hr4
    obtain ⟨rr, hrr, rfl⟩ := List.mem_map.mp hr4
    obtain ⟨i, r6, _, hr6, rfl⟩ := mem_of_zipWith _ _ _ _ hrr
    have h7 : ((i :: r6) ++ [mapViaS (get_model2mid db)
        (getCell ("nid" :: notesNormCols) (i :: r6) "nmodel")]).getD 7 Val.nan
        = mapViaS (get_model2mid db) (getCell ("nid" :: notesNormCols) (i :: r6) "nmodel") :=
      getD_append_length _ Val.nan (i :: r6) 7 (by simp [hrlen r6 hr6])
    have h5 : ((i :: r6) ++ [mapViaS (get_model2mid db)
        (getCell ("nid" :: notesNormCols) (i :: r6) "nmodel")]).getD 5 Val.nan
        = r6.getD 4 Val.nan := by
      rw [List.getD_append (i :: r6) _ Val.nan 5 (by simp [hrlen r6 hr6])]
      simp
    have hcell : getCell ("nid" :: notesNormCols) (i :: r6) "nmodel" = r6.getD 5 Val.nan := by
      simp [getCell, notesNormCols]
    obtain ⟨m, sf, hm, hsf, hwd⟩ := hok r6 hr6
    refine ⟨m, sf, ?_, hsf, ?_⟩
    · rw [h7, hcell]
      exact hm
    · rw [h5]
      exact hwd
  have hR4ne : ¬ List.zipWith (fun r v => r ++ [v])
      (List.zipWith (fun i r => i :: r) ids rs2)
      (((List.zipWith (fun i r => i :: r) ids rs2).map
          (fun r => getCell ("nid" :: notesNormCols) r "nmodel")).map
        (mapViaS (get_model2mid db))) = [] := by
    intro h0
    have hlen4 : (List.zipWith (fun r v => r ++ [v])
        (List.zipWith (fun i r => i :: r) ids rs2)
        (((List.zipWith (fun i r => i :: r) ids rs2).map
            (fun r => getCell ("nid" :: notesNormCols) r "nmodel")).map
          (mapViaS (get_model2mid db)))).length = rs2.length := by
      simp [List.length_zipWith, List.length_map, hlen]
    rw [h0] at hlen4
    exact hne (List.length_eq_zero.mp hlen4.symm)
  rw [notesFieldBlock_eq db _ (rangeIdx rs2.length) "" "notes" "in_progress" hR4ne hR4len hR4ok]
  rw [show ∀ (d : DF), (match (Except.ok d : Except String DF) with
      | .error e => (.error e : Except String DF)
      | .ok d5 => rawTail d5) = rawTail d from fun _ => rfl]
  rw [rawTail_notes]
  have hlen9 : (notesD9 (List.map
      (fun r => r.set 5 (joinFieldsCell (r.getD 5 Val.nan))
        ++ [sfldValOf8 db r, csumCell (r.getD 5 Val.nan)])
      (List.zipWith (fun r v => r ++ [v]) (List.zipWith (fun i r => i :: r) ids rs2)
        (((List.zipWith (fun i r => i :: r) ids rs2).map
            (fun r => getCell ("nid" :: notesNormCols) r "nmodel")).map
          (mapViaS (get_model2mid db))))) (rangeIdx rs2.length)).rows.length = rs2.length := by
    simp [notesD9, DF.mapCol, DF.setColConst, DF.setColVals, DF.getColVals, DF.renameCols,
      getCell, notesCsumCols, columnsAnki2Ours, invert_dict, List.length_zipWith,
      List.length_map, hlen]
  have hc : ¬ (notesD9 (List.map
      (fun r => r.set 5 (joinFieldsCell (r.getD 5 Val.nan))
        ++ [sfldValOf8 db r, csumCell (r.getD 5 Val.nan)])
      (List.zipWith (fun r v => r ++ [v]) (List.zipWith (fun i r => i :: r) ids rs2)
        (((List.zipWith (fun i r => i :: r) ids rs2).map
            (fun r => getCell ("nid" :: notesNormCols) r "nmodel")).map
          (mapViaS (get_model2mid db))))) (rangeIdx rs2.length)).rows.length = 0 := by
    rw [hlen9]
    intro h0
    exact hne (List.length_eq_zero.mp h0)
  rw [rawFinish_notes _ _ hc]
  refine congrArg (fun rws => Except.ok
    (DF.mk (ankiColumns "notes") rws (rangeIdx rs2.length) "" "notes" "anki" "list")) ?_
  simp [notesD9, DF.mapCol, DF.setColConst, DF.setColVals, DF.getColVals, DF.renameCols, getCell,
    notesCsumCols, notesMidCols, notesNormCols, ankiColumns, columnsAnki2Ours, invert_dict,
    List.map_map, List.map_zipWith, zipWith_map_same, zipWith_map_left, zipWith_map_right,
    zipWith_zipWith_same]
  apply zipWith_congr_mem
  intro i hi r hr
  have h := hrlen r hr
  obtain ⟨a0, r, rfl, h⟩ := cons_of_length_succ r 5 (by omega)
  obtain ⟨a1, r, rfl, h⟩ := cons_of_length_succ r 4 (by omega)
  obtain ⟨a2, r, rfl, h⟩ := cons_of_length_succ r 3 (by omega)
  obtain ⟨a3, r, rfl, h⟩ := cons_of_length_succ r 2 (by omega)
  obtain ⟨a4, r, rfl, h⟩ := cons_of_length_succ r 1 (by omega)
  obtain ⟨a5, r, rfl, h⟩ := cons_of_length_succ r 0 (by omega)
  obtain rfl := List.length_eq_zero.mp (show List.length r = 0 by omega)
  rfl

/-- Reset of the legacy columns by `raw` (lines 1195-1198): `data` becomes the
empty string and `flags` zero on cards and notes tables. -/
def resetLegacyRow (t : String) (r : List Val) : List Val :=
  if t = "cards" ∨ t = "notes" then
    setCellRow (ankiColumns t) (setCellRow (ankiColumns t) r "data" (Val.s "")) "flags" (Val.i 0)
  else r

/-- A native notes row whose derived cells are consistent with its payload:
the model name resolves back to the model id, the sort field has a known
index, tags and fields survive the split/join codecs, and the stored sort
field and checksum equal the re-derived ones. -/
def NotesRowOK (db : DB) (r : List Val) : Prop :=
  r.length = 11 ∧
  rowSelfEq (normNotesRow db r) = true ∧
  valFalsy (r.getD 1 Val.nan) = false ∧
  (∃ m sf, mapViaS (get_model2mid db) (mapViaI db.mid2model (r.getD 2 Val.nan)) = Val.i m ∧
    lookupA db.mid2sortfield m = some sf ∧
    sf < cellWidth (splitFieldsCell (r.getD 6 Val.nan))) ∧
  mapViaS (get_model2mid db) (mapViaI db.mid2model (r.getD 2 Val.nan)) = r.getD 2 Val.nan ∧
  joinTagsCell (splitTagsCell (r.getD 5 Val.nan)) = r.getD 5 Val.nan ∧
  joinFieldsCell (splitFieldsCell (r.getD 6 Val.nan)) = r.getD 6 Val.nan ∧
  noteSfld db (normNotesRow db r) = r.getD 7 Val.nan ∧
  csumCell (splitFieldsCell (r.getD 6 Val.nan)) = r.getD 8 Val.nan

theorem round_trip_notes (db : DB) (rs : List (List Val)) (now : Int) (ff : String)
    (hne : ¬ rs = [])
    (hok : ∀ r ∈ rs, NotesRowOK db r) :
    Except.bind
        (normalize db ⟨ankiColumns "notes", rs, rangeIdx rs.length, "", "notes", "anki", ff⟩ false)
        (fun n => raw db n now n false)
      = .ok ⟨ankiColumns "notes", rs.map (resetLegacyRow "notes"), rangeIdx rs.length,
             "", "notes", "anki", "list"⟩ := by
  have hok11 : ∀ r ∈ rs, r.length = 11 := fun r hr => (hok r hr).1
  rw [normalize_notes_eq db rs ff hok11]
  rw [show ∀ (d : DF) (k : DF → Except String DF), Except.bind (Except.ok d) k = k d
      from fun _ _ => rfl]
  rw [show (rs.map (fun r => r.getD 0 Val.nan)) = rs.map (fun r => r.getD 0 Val.nan) from rfl]
  rw [raw_notes_eq db (rs.map (normNotesRow db)) (rs.map (fun r => r.getD 0 Val.nan)) now
      (by simp) (by simpa using hne)
      (by intro r2 hr2; obtain ⟨r, _, rfl⟩ := List.mem_map.mp hr2; rfl)
      (by
        intro r2 hr2
        obtain ⟨r, hr, rfl⟩ := List.mem_map.mp hr2
        exact (hok r hr).2.1)
      (by
        intro r2 hr2
        obtain ⟨r, hr, rfl⟩ := List.mem_map.mp hr2
        exact (hok r hr).2.2.1)
      (by
        intro r2 hr2
        obtain ⟨r, hr, rfl⟩ := List.mem_map.mp hr2
        obtain ⟨-, -, -, ⟨m, sf, hm, hsf, hwd⟩, -⟩ := hok r hr
        exact ⟨m, sf, by
          rw [show (normNotesRow db r).getD 5 Val.nan
              = mapViaI db.mid2model (r.getD 2 Val.nan) from rfl]
          exact hm, hsf, hwd⟩)]
  simp [zipWith_map_same, List.length_map]
  intro r hr
  obtain ⟨h11, -, -, -, hmid, htags, hflds, hsfld, hcsum⟩ := hok r hr
  obtain ⟨b0, r, rfl, h⟩ := cons_of_length_succ r 10 (by omega)
  obtain ⟨b1, r, rfl, h⟩ := cons_of_length_succ r 9 (by omega)
  obtain ⟨b2, r, rfl, h⟩ := cons_of_length_succ r 8 (by omega)
  obtain ⟨b3, r, rfl, h⟩ := cons_of_length_succ r 7 (by omega)
  obtain ⟨b4, r, rfl, h⟩ := cons_of_length_succ r 6 (by omega)
  obtain ⟨b5, r, rfl, h⟩ := cons_of_length_succ r 5 (by omega)
  obtain ⟨b6, r, rfl, h⟩ := cons_of_length_succ r 4 (by omega)
  obtain ⟨b7, r, rfl, h⟩ := cons_of_length_succ r 3 (by omega)
  obtain ⟨b8, r, rfl, h⟩ := cons_of_length_succ r 2 (by omega)
  obtain ⟨b9, r, rfl, h⟩ := cons_of_length_succ r 1 (by omega)
  obtain ⟨b10, r, rfl, h⟩ := cons_of_length_succ r 0 (by omega)
  obtain rfl := List.length_eq_zero.mp (show List.length r = 0 by omega)
  simp [normNotesRow] at hmid htags hflds hsfld hcsum
  simp [rawNotesRow, normNotesRow, resetLegacyRow, setCellRow, getCell, ankiColumns,
    hmid, htags, hflds, hsfld, hcsum]


/-- A native cards row whose mapped cells are consistent: deck and original
deck ids resolve to deck names and back, and the type and queue codes are in
the coded enumerations. -/
def CardsRowOK (db : DB) (r : List Val) : Prop :=
  r.length = 18 ∧
  rowSelfEq (normCardsRow db r) = true ∧
  mapViaS (get_deck2did db) (mapViaI db.did2deck (r.getD 2 Val.nan)) = r.getD 2 Val.nan ∧
  mapViaS (get_deck2did db) (mapViaI db.did2deck (r.getD 15 Val.nan)) = r.getD 15 Val.nan ∧
  mapViaS (invert_dict ctypeMap) (mapViaI ctypeMap (r.getD 6 Val.nan)) = r.getD 6 Val.nan ∧
  mapViaS (invert_dict cqueueMap) (mapViaI cqueueMap (r.getD 7 Val.nan)) = r.getD 7 Val.nan

/-- A native revs row whose review type code is in the coded enumeration. -/
def RevsRowOK (r : List Val) : Prop :=
  r.length = 9 ∧
  rowSelfEq (normRevsRow r) = true ∧
  mapViaS (invert_dict rtypeMap) (mapViaI rtypeMap (r.getD 8 Val.nan)) = r.getD 8 Val.nan

theorem round_trip_cards (db : DB) (rs : List (List Val)) (now : Int) (ff : String)
    (hne : ¬ rs = []) (hok : ∀ r ∈ rs, CardsRowOK db r) :
    Except.bind
        (normalize db ⟨ankiColumns "cards", rs, rangeIdx rs.length, "", "cards", "anki", ff⟩ false)
        (fun n => raw db n now n false)
      = .ok ⟨ankiColumns "cards", rs.map (resetLegacyRow "cards"), rangeIdx rs.length,
             "", "cards", "anki", ff⟩ := by
  have hok18 : ∀ r ∈ rs, r.length = 18 := fun r hr => (hok r hr).1
  rw [normalize_cards_eq db rs ff hok18]
  rw [show ∀ (d : DF) (k : DF → Except String DF), Except.bind (Except.ok d) k = k d
      from fun _ _ => rfl]
  rw [raw_cards_eq db (rs.map (normCardsRow db)) (rs.map (fun r => r.getD 0 Val.nan)) now ff
      (by simp) (by simpa using hne)
      (by intro r2 hr2; obtain ⟨r, _, rfl⟩ := List.mem_map.mp hr2; rfl)
      (by
        intro r2 hr2
        obtain ⟨r, hr, rfl⟩ := List.mem_map.mp hr2
        exact (hok r hr).2.1)]
  simp [zipWith_map_same, List.length_map]
  intro r hr
  obtain ⟨h18, -, hd2, hd15, ht6, hq7⟩ := hok r hr
  obtain ⟨b0, r, rfl, h⟩ := cons_of_length_succ r 17 (by omega)
  obtain ⟨b1, r, rfl, h⟩ := cons_of_length_succ r 16 (by omega)
  obtain ⟨b2, r, rfl, h⟩ := cons_of_length_succ r 15 (by omega)
  obtain ⟨b3, r, rfl, h⟩ := cons_of_length_succ r 14 (by omega)
  obtain ⟨b4, r, rfl, h⟩ := cons_of_length_succ r 13 (by omega)
  obtain ⟨b5, r, rfl, h⟩ := cons_of_length_succ r 12 (by omega)
  obtain ⟨b6, r, rfl, h⟩ := cons_of_length_succ r 11 (by omega)
  obtain ⟨b7, r, rfl, h⟩ := cons_of_length_succ r 10 (by omega)
  obtain ⟨b8, r, rfl, h⟩ := cons_of_length_succ r 9 (by omega)
  obtain ⟨b9, r, rfl, h⟩ := cons_of_length_succ r 8 (by omega)
  obtain ⟨b10, r, rfl, h⟩ := cons_of_length_succ r 7 (by omega)
  obtain ⟨b11, r, rfl, h⟩ := cons_of_length_succ r 6 (by omega)
  obtain ⟨b12, r, rfl, h⟩ := cons_of_length_succ r 5 (by omega)
  obtain ⟨b13, r, rfl, h⟩ := cons_of_length_succ r 4 (by omega)
  obtain ⟨b14, r, rfl, h⟩ := cons_of_length_succ r 3 (by omega)
  obtain ⟨b15, r, rfl, h⟩ := cons_of_length_succ r 2 (by omega)
  obtain ⟨b16, r, rfl, h⟩ := cons_of_length_succ r 1 (by omega)
  obtain ⟨b17, r, rfl, h⟩ := cons_of_length_succ r 0 (by omega)
  obtain rfl := List.length_eq_zero.mp (show List.length r = 0 by omega)
  simp [normCardsRow] at hd2 hd15 ht6 hq7
  simp [rawCardsRow, normCardsRow, resetLegacyRow, setCellRow, getCell, ankiColumns,
    hd2, hd15, ht6, hq7]

theorem round_trip_revs (db : DB) (rs : List (List Val)) (now : Int) (ff : String)
    (hne : ¬ rs = []) (hok : ∀ r ∈ rs, RevsRowOK r) :
    Except.bind
        (normalize db ⟨ankiColumns "revs", rs, rangeIdx rs.length, "", "revs", "anki", ff⟩ false)
        (fun n => raw db n now n false)
      = .ok ⟨ankiColumns "revs", rs.map (resetLegacyRow "revs"), rangeIdx rs.length,
             "", "revs", "anki", ff⟩ := by
  have hok9 : ∀ r ∈ rs, r.length = 9 := fun r hr => (hok r hr).1
  rw [normalize_revs_eq db rs ff hok9]
  rw [show ∀ (d : DF) (k : DF → Except String DF), Except.bind (Except.ok d) k = k d
      from fun _ _ => rfl]
  rw [raw_revs_eq db (rs.map normRevsRow) (rs.map (fun r => r.getD 0 Val.nan)) now ff
      (by simp) (by simpa using hne)
      (by intro r2 hr2; obtain ⟨r, _, rfl⟩ := List.mem_map.mp hr2; rfl)
      (by
        intro r2 hr2
        obtain ⟨r, hr, rfl⟩ := List.mem_map.mp hr2
        exact (hok r hr).2.1)]
  simp [zipWith_map_same, List.length_map]
  intro r hr
  obtain ⟨h9, -, ht8⟩ := hok r hr
  obtain ⟨b0, r, rfl, h⟩ := cons_of_length_succ r 8 (by omega)
  obtain ⟨b1, r, rfl, h⟩ := cons_of_length_succ r 7 (by omega)
  obtain ⟨b2, r, rfl, h⟩ := cons_of_length_succ r 6 (by omega)
  obtain ⟨b3, r, rfl, h⟩ := cons_of_length_succ r 5 (by omega)
  obtain ⟨b4, r, rfl, h⟩ := cons_of_length_succ r 4 (by omega)
  obtain ⟨b5, r, rfl, h⟩ := cons_of_length_succ r 3 (by omega)
  obtain ⟨b6, r, rfl, h⟩ := cons_of_length_succ r 2 (by omega)
  obtain ⟨b7, r, rfl, h⟩ := cons_of_length_succ r 1 (by omega)
  obtain ⟨b8, r, rfl, h⟩ := cons_of_length_succ r 0 (by omega)
  obtain rfl := List.length_eq_zero.mp (show List.length r = 0 by omega)
  simp [normRevsRow] at ht8
  simp [rawRevsRow, normRevsRow, resetLegacyRow, setCellRow, getCell, ankiColumns, ht8]

/-- Per-table consistency of a native row with the resolver state, as needed
for the reverse conversion to re-derive every derived cell exactly. -/
def NativeRowOK (db : DB) (t : String) (r : List Val) : Prop :=
  if t = "cards" then CardsRowOK db r
  else if t = "notes" then NotesRowOK db r
  else if t = "revs" then RevsRowOK r
  else False

/-- C1 (amended): on a non-empty table in native format whose rows are
consistent with the resolver state (deck names, model names, and coded enums
invert exactly; tags and field strings survive the split/join codecs; the
stored sort field and checksum equal the re-derived ones), `normalize`
followed by `raw` with an unmodified reload reproduces the column order, the
column set, the index, and every cell exactly, except that `data` is reset to
the empty string and `flags` to zero on cards and notes; the usn and mod
cells are untouched.  The claim is amended: without the row-consistency
hypotheses the conversion raises or rewrites cells (see the counterexample);
in particular every guid must be non-empty (else `_set_guid` raises), no row
may contain NaN (else `nan != nan` marks it modified and usn/mod are
restamped), and every sort-field index must fall inside its model field
frame (else the restoration raises KeyError).  The fields sub-format
attribute of a notes table also ends as `list`, not `anki`. -/
theorem C1_round_trip (db : DB) (t : String) (rs : List (List Val)) (now : Int) (ff : String)
    (ht : t = "cards" ∨ t = "notes" ∨ t = "revs") (hne : ¬ rs = [])
    (hok : ∀ r ∈ rs, NativeRowOK db t r) :
    Except.bind (normalize db ⟨ankiColumns t, rs, rangeIdx rs.length, "", t, "anki", ff⟩ false)
        (fun n => raw db n now n false)
      = .ok ⟨ankiColumns t, rs.map (resetLegacyRow t), rangeIdx rs.length, "", t, "anki",
             if t = "notes" then "list" else ff⟩ := by
  rcases ht with rfl | rfl | rfl
  · simpa using round_trip_cards db rs now ff hne
      (fun r hr => by simpa [NativeRowOK] using hok r hr)
  · simpa using round_trip_notes db rs now ff hne
      (fun r hr => by simpa [NativeRowOK] using hok r hr)
  · simpa using round_trip_revs db rs now ff hne
      (fun r hr => by simpa [NativeRowOK] using hok r hr)

/-- C1 witness: the one-row native notes table `exNotesAnki` (whose cells are
consistent with the resolver `exDb`) round-trips to itself with `data` and
`flags` reset. -/
theorem C1_round_trip_witness :
    Except.bind (normalize exDb exNotesAnki false) (fun n => raw exDb n 99 n false)
      = .ok ⟨ankiColumns "notes", exNotesAnki.rows.map (resetLegacyRow "notes"), rangeIdx 1,
             "", "notes", "anki", "list"⟩ := by
  have h := C1_round_trip exDb "notes" exNotesAnki.rows 99 "anki"
    (Or.inr (Or.inl rfl)) (by decide)
    (by
      intro r hr
      have hr2 : r = [Val.i 10, Val.s "g", Val.i 1, Val.i 5, Val.i 7, Val.s "a b",
          Val.s "hello", Val.s "hello", Val.i (field_checksum "hello"), Val.i 3,
          Val.s "xyz"] := by
        simpa [exNotesAnki] using hr
      subst hr2
      simp only [NativeRowOK, NotesRowOK, String.reduceEq, reduceIte, ite_true, ite_false]
      refine ⟨by decide, by decide, by decide, ⟨1, 0, by decide, by decide, by decide⟩,
        by decide, by decide, by decide, by decide, by decide⟩)
  exact h

/-- C1 counterexample to the unamended claim: a native notes table whose tags
cell carries a leading space (as Anki itself stores tags) does not round-trip
byte-identically; the tags cell is a derived cell rewritten by the codec, not
one of the exempted `data`/`flags` cells, and no row was modified. -/
theorem C1_counterexample :
    Except.map (fun d => getCell d.cols (d.rows.getD 0 []) "tags")
        (Except.bind (normalize exDb exNotesAnkiBadTags false) (fun n => raw exDb n 99 n false))
      = .ok (Val.s "a")
    ∧ getCell exNotesAnkiBadTags.cols (exNotesAnkiBadTags.rows.getD 0 []) "tags"
      = Val.s " a" := by
  constructor
  · decide
  · decide

end AnkiPandas
